import Mathlib

/-!
Verification development for the `canary` plugin-risk scoring repository.

The Python sources under `canary/` are shallowly embedded here:

* Python strings are modelled as `List Char` (sequences of Unicode code
  points), wrapped in Lean `String` at API boundaries.
* Python floats are modelled as exact rationals extended with the special
  values `nan`, `inf` and `-inf` (`PyNum`).  The binary rounding of IEEE
  doubles is not modelled; every concrete fact proved here is far from any
  decision boundary that double rounding could move.
* JSON values (the results of `json.loads`) are modelled by the inductive
  type `JVal`; Python `int` and `float` are collapsed into `JVal.num`.
* Raising code is modelled in the `Except Unit` monad; a `.error ()` result
  is an uncaught Python exception escaping the modelled function.
* Filesystem state is modelled by the `Dataset` structure: for each path the
  scorer can consult, the dataset holds `none` (file absent) or the parse
  outcome of its contents.
-/

namespace Canary

/-! ## Python string primitives (on `List Char`) -/

/-- Whitespace recognised by Python `str.strip()` / `str.isspace()`
(ASCII whitespace, the C0 separator block, and the common Unicode spaces). -/
def pyIsSpace (c : Char) : Bool :=
  c = ' ' ∨ c = '\t' ∨ c = '\n' ∨ c.val = 13 ∨ c.val = 11 ∨ c.val = 12 ∨
  (28 ≤ c.val ∧ c.val ≤ 31) ∨ c.val = 0x85 ∨ c.val = 0xa0 ∨ c.val = 0x1680 ∨
  (0x2000 ≤ c.val ∧ c.val ≤ 0x200a) ∨ c.val = 0x2028 ∨ c.val = 0x2029 ∨
  c.val = 0x202f ∨ c.val = 0x205f ∨ c.val = 0x3000

/-- Python `str.strip()` with no arguments. -/
def pyStripChars (l : List Char) : List Char :=
  ((l.dropWhile pyIsSpace).reverse.dropWhile pyIsSpace).reverse

/-- ASCII lower-casing of one character.  Python `str.lower()` also maps
non-ASCII letters; every place the embedding lower-cases a string either
(a) is guarded so that only ASCII characters reach it (URL schemes), or
(b) is quantified over through the embedded normaliser itself, so the
non-ASCII case mapping is never load-bearing. -/
def asciiLowerChar (c : Char) : Char :=
  if 'A' ≤ c ∧ c ≤ 'Z' then Char.ofNat (c.val.toNat + 32) else c

def asciiLowerChars (l : List Char) : List Char := l.map asciiLowerChar

def asciiLower (s : String) : String := ⟨asciiLowerChars s.data⟩

/-- Python substring membership `pat in s` (contiguous substring). -/
def charsStartsWith : List Char → List Char → Bool
  | [], _ => true
  | _ :: _, [] => false
  | p :: ps, c :: cs => p = c && charsStartsWith ps cs

def charsContainsSub (pat : List Char) : List Char → Bool
  | [] => charsStartsWith pat []
  | c :: cs => charsStartsWith pat (c :: cs) || charsContainsSub pat cs

/-- Python `pat in s` for strings. -/
def pyInStr (pat s : String) : Bool := charsContainsSub pat.data s.data

/-- Split at the first occurrence of `c` (Python `s.split(c, 1)` when `c`
occurs); `none` when `c` does not occur. -/
def splitFirst (c : Char) : List Char → Option (List Char × List Char)
  | [] => none
  | x :: xs =>
    if x = c then some ([], xs)
    else (splitFirst c xs).map (fun p => (x :: p.1, p.2))

def splitAllAux (c : Char) : List Char → List Char → List (List Char)
  | [], acc => [acc.reverse]
  | x :: xs, acc =>
    if x = c then acc.reverse :: splitAllAux c xs []
    else splitAllAux c xs (x :: acc)

/-- Python `s.split(sep)` for a one-character separator (as used by
`vector.split("/")`). -/
def splitAll (c : Char) (l : List Char) : List (List Char) :=
  splitAllAux c l []

/-- Code-point lexicographic order on char lists: Python `<=` on `str`. -/
def charsLeB : List Char → List Char → Bool
  | [], _ => true
  | _ :: _, [] => false
  | a :: as, b :: bs =>
    if a.toNat < b.toNat then true
    else if b.toNat < a.toNat then false
    else charsLeB as bs

def charsLe (a b : List Char) : Prop := charsLeB a b = true

instance : DecidableRel charsLe := fun a b => by unfold charsLe; infer_instance

theorem charsLeB_total (a b : List Char) : charsLeB a b = true ∨ charsLeB b a = true := by
  induction a generalizing b with
  | nil => left; rfl
  | cons x xs ih =>
    cases b with
    | nil => right; rfl
    | cons y ys =>
      by_cases h1 : x.toNat < y.toNat
      · left; simp [charsLeB, h1]
      · by_cases h2 : y.toNat < x.toNat
        · right; simp [charsLeB, h2]
        · have := ih ys
          simpa [charsLeB, h1, h2] using this

theorem charsLeB_antisymm (a b : List Char) (h1 : charsLeB a b = true)
    (h2 : charsLeB b a = true) : a = b := by
  induction a generalizing b with
  | nil =>
    cases b with
    | nil => rfl
    | cons y ys => simp [charsLeB] at h2
  | cons x xs ih =>
    cases b with
    | nil => simp [charsLeB] at h1
    | cons y ys =>
      by_cases hxy : x.toNat < y.toNat
      · exfalso
        have hyx : ¬ y.toNat < x.toNat := by omega
        simp [charsLeB, hxy, hyx] at h2
      · by_cases hyx : y.toNat < x.toNat
        · exfalso; simp [charsLeB, hxy, hyx] at h1
        · have hx : x = y := by
            have : x.toNat = y.toNat := by omega
            simpa [Char.ext_iff, UInt32.ext_iff] using this
          subst hx
          simp only [charsLeB, hxy, if_false] at h1 h2
          rw [ih ys h1 h2]

theorem charsLeB_trans (a b c : List Char) (h1 : charsLeB a b = true)
    (h2 : charsLeB b c = true) : charsLeB a c = true := by
  induction a generalizing b c with
  | nil => rfl
  | cons x xs ih =>
    cases b with
    | nil => simp [charsLeB] at h1
    | cons y ys =>
      cases c with
      | nil => simp [charsLeB] at h2
      | cons z zs =>
        simp only [charsLeB] at h1 h2 ⊢
        rcases Nat.lt_trichotomy x.toNat y.toNat with hxy | hxy | hxy
        · rcases Nat.lt_trichotomy y.toNat z.toNat with hyz | hyz | hyz
          · simp [show x.toNat < z.toNat by omega]
          · simp [show x.toNat < z.toNat by omega]
          · simp [show ¬ y.toNat < z.toNat by omega, show z.toNat < y.toNat by omega] at h2
        · rcases Nat.lt_trichotomy y.toNat z.toNat with hyz | hyz | hyz
          · simp [show x.toNat < z.toNat by omega]
          · have hxz : ¬ x.toNat < z.toNat := by omega
            have hzx : ¬ z.toNat < x.toNat := by omega
            simp only [hxz, if_false, hzx]
            simp only [show ¬ x.toNat < y.toNat by omega, if_false,
              show ¬ y.toNat < x.toNat by omega] at h1
            simp only [show ¬ y.toNat < z.toNat by omega, if_false,
              show ¬ z.toNat < y.toNat by omega] at h2
            exact ih ys zs h1 h2
          · simp [show ¬ y.toNat < z.toNat by omega, show z.toNat < y.toNat by omega] at h2
        · simp [show ¬ x.toNat < y.toNat by omega, show y.toNat < x.toNat by omega] at h1

instance : IsTotal (List Char) charsLe := ⟨fun a b => charsLeB_total a b⟩
instance : IsTrans (List Char) charsLe := ⟨fun a b c => charsLeB_trans a b c⟩
instance : IsAntisymm (List Char) charsLe := ⟨fun a b => charsLeB_antisymm a b⟩
instance : IsRefl (List Char) charsLe :=
  ⟨fun a => (charsLeB_total a a).elim id id⟩

/-- Python `sorted(set(xs))` for a list of strings, by code points. -/
def sortedDedup (l : List String) : List String :=
  ((List.insertionSort charsLe (l.map String.data).dedup).map
    fun cs => (⟨cs⟩ : String))

theorem stringDataInjective : Function.Injective String.data := by
  intro a b h; cases a; cases b; exact congrArg String.mk h

/-- `sorted(set(·))` only depends on the multiset of inputs. -/
theorem sortedDedup_perm_eq (l₁ l₂ : List String) (h : List.Perm l₁ l₂) :
    sortedDedup l₁ = sortedDedup l₂ := by
  unfold sortedDedup
  congr 1
  refine List.eq_of_perm_of_sorted ?_ (List.sorted_insertionSort _ _)
    (List.sorted_insertionSort _ _)
  refine ((List.perm_insertionSort _ _).trans ?_).trans
    (List.perm_insertionSort _ _).symm
  exact ((h.map String.data).dedup)

/-- `sorted(set(a | b))` is symmetric in the two sides. -/
theorem sortedDedup_append_comm (a b : List String) :
    sortedDedup (a ++ b) = sortedDedup (b ++ a) :=
  sortedDedup_perm_eq _ _ (List.perm_append_comm)


/-! ## Python floats (`PyNum`) -/

/-- Python floats, modelled as exact rationals plus the IEEE special values.
Binary rounding of doubles is not modelled. -/
inductive PyNum where
  | fin (q : ℚ)
  | pinf
  | ninf
  | nan
deriving DecidableEq

namespace PyNum

/-- IEEE `<` (false on any comparison with `nan`). -/
def ltB : PyNum → PyNum → Bool
  | fin a, fin b => decide (a < b)
  | fin _, pinf => true
  | ninf, fin _ => true
  | ninf, pinf => true
  | _, _ => false

/-- IEEE `<=` (false on any comparison with `nan`). -/
def leB : PyNum → PyNum → Bool
  | fin a, fin b => decide (a ≤ b)
  | fin _, pinf => true
  | ninf, fin _ => true
  | ninf, pinf => true
  | pinf, pinf => true
  | ninf, ninf => true
  | _, _ => false

/-- IEEE `==` (false on any comparison with `nan`, including `nan == nan`). -/
def eqB : PyNum → PyNum → Bool
  | fin a, fin b => decide (a = b)
  | pinf, pinf => true
  | ninf, ninf => true
  | _, _ => false

/-- Python `a > b` is `b < a` for floats. -/
def gtB (a b : PyNum) : Bool := ltB b a

/-- Python `a >= b` is `b <= a` for floats. -/
def geB (a b : PyNum) : Bool := leB b a

/-- Python truthiness of a float (`bool(0.0)` is the only falsy one). -/
def truthy : PyNum → Bool
  | fin q => decide (q ≠ 0)
  | _ => true

end PyNum

/-- Builtin `min(a, b)`: keeps `a` unless `b < a`. -/
def pyMinNum (a b : PyNum) : PyNum := if PyNum.ltB b a then b else a

/-- Builtin `max(a, b)`: keeps `a` unless `b > a`. -/
def pyMaxNum (a b : PyNum) : PyNum := if PyNum.gtB b a then b else a

/-- Python 3 `round(x)` on a float: nearest integer, ties to even. -/
def roundHalfEven (q : ℚ) : ℤ :=
  let f : ℤ := ⌊q⌋
  let r : ℚ := q - (f : ℚ)
  if r < 1/2 then f
  else if r > 1/2 then f + 1
  else if f % 2 = 0 then f else f + 1

/-! ## JSON values (`json.loads` results) -/

/-- Result of `json.loads`: Python `None`/`bool`/`int`/`float`/`str`/`list`/
`dict` (with string keys).  `int` and `float` are collapsed into `num`. -/
inductive JVal where
  | null
  | bool (b : Bool)
  | num (x : PyNum)
  | str (s : String)
  | arr (elems : List JVal)
  | obj (fields : List (String × JVal))

namespace JVal

/-- Python truthiness. -/
def truthy : JVal → Bool
  | null => false
  | bool b => b
  | num x => x.truthy
  | str s => !s.data.isEmpty
  | arr l => !l.isEmpty
  | obj l => !l.isEmpty

def isObj : JVal → Bool
  | obj _ => true
  | _ => false

def isArr : JVal → Bool
  | arr _ => true
  | _ => false

def isStr : JVal → Bool
  | str _ => true
  | _ => false

/-- Lookup in an object (parsed Python dicts have unique keys, so
first-match lookup is exact). -/
def lookup (k : String) : List (String × JVal) → Option JVal
  | [] => none
  | (k', v) :: rest => if k' = k then some v else lookup k rest

/-- Python `d.get(k, dflt)` when `d` is known to be a dict. -/
def getD (j : JVal) (k : String) (dflt : JVal) : JVal :=
  match j with
  | obj kvs => (lookup k kvs).getD dflt
  | _ => dflt

/-- Python `d.get(k, dflt)` on an arbitrary value: raises `AttributeError`
when the value is not a dict. -/
def getE (j : JVal) (k : String) (dflt : JVal) : Except Unit JVal :=
  match j with
  | obj kvs => .ok ((lookup k kvs).getD dflt)
  | _ => .error ()

/-- Python `k in d` for a dict. -/
def hasKey (j : JVal) (k : String) : Bool :=
  match j with
  | obj kvs => (lookup k kvs).isSome
  | _ => false

/-- Python `len(x)`: length of a string/list/dict, `TypeError` otherwise. -/
def lenE : JVal → Except Unit ℤ
  | str s => .ok s.data.length
  | arr l => .ok l.length
  | obj l => .ok l.length
  | _ => .error ()

/-- Python iteration `for w in x`: list elements, string characters, or dict
keys; `TypeError` otherwise. -/
def iterE : JVal → Except Unit (List JVal)
  | arr l => .ok l
  | str s => .ok (s.data.map fun c => .str (String.singleton c))
  | obj kvs => .ok (kvs.map fun p => .str p.1)
  | _ => .error ()

end JVal

/-! ## Python numeric/string conversions -/

/-- Fixed-point rendering of a rational with `prec` digits after the point
(Python `format(x, ".Nf")`, ties to even). -/
def fmtFixed (prec : ℕ) (q : ℚ) : String :=
  let n : ℤ := roundHalfEven (q * (10 : ℚ) ^ prec)
  let m : ℕ := n.natAbs
  let ip : ℕ := m / 10 ^ prec
  let fp : ℕ := m % 10 ^ prec
  let sign : String := if n < 0 then "-" else ""
  let fracDigits : String :=
    let raw := toString fp
    ⟨List.replicate (prec - raw.data.length) '0' ++ raw.data⟩
  if prec = 0 then sign ++ toString ip
  else sign ++ toString ip ++ "." ++ fracDigits

/-- Fixed-point rendering of a `PyNum` (Python `f"{x:.Nf}"`). -/
def fmtFixedNum (prec : ℕ) : PyNum → String
  | .fin q => fmtFixed prec q
  | .nan => "nan"
  | .pinf => "inf"
  | .ninf => "-inf"

/-- Decimal digits of a char list consumed greedily. -/
def takeDigits (l : List Char) : List Char × List Char :=
  (l.takeWhile Char.isDigit, l.dropWhile Char.isDigit)

def digitsVal (l : List Char) : ℕ :=
  l.foldl (fun acc c => acc * 10 + (c.toNat - 48)) 0

/-- ASCII case-insensitive equality of char lists. -/
def charsEqCI (a b : List Char) : Bool :=
  asciiLowerChars a = asciiLowerChars b

/-- Python `float(s)` on an already-stripped string: sign, then either an
`inf`/`infinity`/`nan` keyword or a decimal mantissa with optional exponent.
Underscored digit groups are not modelled. -/
def parseFloatChars (l : List Char) : Option PyNum :=
  let (neg, rest) :=
    match l with
    | '+' :: r => (false, r)
    | '-' :: r => (true, r)
    | r => (false, r)
  if charsEqCI rest "inf".data ∨ charsEqCI rest "infinity".data then
    some (if neg then .ninf else .pinf)
  else if charsEqCI rest "nan".data then
    some .nan
  else
    let (ipart, r1) := takeDigits rest
    let (fpart, r2) :=
      match r1 with
      | '.' :: r => takeDigits r
      | _ => ([], r1)
    if ipart.isEmpty ∧ fpart.isEmpty then none
    else
      let mant : ℚ := (digitsVal ipart : ℚ) +
        (digitsVal fpart : ℚ) / (10 : ℚ) ^ fpart.length
      match r2 with
      | [] => some (.fin (if neg then -mant else mant))
      | e :: r3 =>
        if e = 'e' ∨ e = 'E' then
          let (eneg, r4) :=
            match r3 with
            | '+' :: r => (false, r)
            | '-' :: r => (true, r)
            | r => (false, r)
          let (epart, r5) := takeDigits r4
          if epart.isEmpty ∨ ¬ r5.isEmpty then none
          else
            let p : ℚ := (10 : ℚ) ^ digitsVal epart
            let v : ℚ := if eneg then mant / p else mant * p
            some (.fin (if neg then -v else v))
        else none

/-- Python `float(x)` applied to a JSON value; `none` models the raised
`TypeError`/`ValueError` (always caught at the call sites embedded here). -/
def pyFloat : JVal → Option PyNum
  | .num x => some x
  | .bool b => some (.fin (if b then 1 else 0))
  | .str s => parseFloatChars (pyStripChars s.data)
  | _ => none

/-- Decimal-ish rendering of a rational for `str()`/f-strings.  Python would
print the shortest round-tripping decimal of the underlying double; every
use in the embedding feeds either a strict date parser (which rejects any
numeric text) or a human-readable reason string, so the exact digits are
never load-bearing. -/
def ratRepr (q : ℚ) : String :=
  if q.den = 1 then toString q.num
  else toString q.num ++ "/" ++ toString q.den

mutual

/-- Python `str(x)` for JSON-shaped values. -/
def pyStr : JVal → String
  | .null => "None"
  | .bool b => if b then "True" else "False"
  | .num (.fin q) => ratRepr q
  | .num .nan => "nan"
  | .num .pinf => "inf"
  | .num .ninf => "-inf"
  | .str s => s
  | .arr l => "[" ++ pyStrList l ++ "]"
  | .obj kvs => "\x7b" ++ pyStrFields kvs ++ "\x7d"

/-- Comma-joined `repr`s of list elements (string escaping inside `repr` is
not modelled; see `ratRepr`). -/
def pyStrList : List JVal → String
  | [] => ""
  | [x] => pyStr x
  | x :: rest => pyStr x ++ ", " ++ pyStrList rest

def pyStrFields : List (String × JVal) → String
  | [] => ""
  | [(k, v)] => k ++ ": " ++ pyStr v
  | (k, v) :: rest => k ++ ": " ++ pyStr v ++ ", " ++ pyStrFields rest

end

/-! ## Dates and datetimes -/

/-- A Python `datetime.date`. -/
structure PyDate where
  year : ℤ
  month : ℤ
  day : ℤ
deriving DecidableEq

/-- Days in a month of the proleptic Gregorian calendar. -/
def daysInMonth (y m : ℤ) : ℤ :=
  if m = 2 then
    if y % 4 = 0 ∧ (y % 100 ≠ 0 ∨ y % 400 = 0) then 29 else 28
  else if m = 4 ∨ m = 6 ∨ m = 9 ∨ m = 11 then 30
  else 31

/-- Proleptic-Gregorian day number (Howard Hinnant `days_from_civil`);
differences agree with Python `date` subtraction. -/
def dateOrdinal (d : PyDate) : ℤ :=
  let y : ℤ := if d.month ≤ 2 then d.year - 1 else d.year
  let era : ℤ := (if 0 ≤ y then y else y - 399) / 400
  let yoe : ℤ := y - era * 400
  let doy : ℤ := (153 * (d.month + (if d.month > 2 then -3 else 9)) + 2) / 5 + d.day - 1
  let doe : ℤ := yoe * 365 + yoe / 4 - yoe / 100 + doy
  era * 146097 + doe - 719468

/-- Python date subtraction: `(d1 - d2).days`. -/
def dateDiffDays (d1 d2 : PyDate) : ℤ := dateOrdinal d1 - dateOrdinal d2

/-- Python date comparison `d1 < d2` (field lexicographic). -/
def dateLtB (d1 d2 : PyDate) : Bool :=
  if d1.year ≠ d2.year then decide (d1.year < d2.year)
  else if d1.month ≠ d2.month then decide (d1.month < d2.month)
  else decide (d1.day < d2.day)

/-- Python `max` over a non-empty date list (first maximum wins). -/
def dateListMax (d : PyDate) : List PyDate → PyDate
  | [] => d
  | x :: xs => if dateLtB d x then dateListMax x xs else dateListMax d xs

/-- Two-digit zero-padded rendering of a small natural. -/
def pad2 (n : ℕ) : String :=
  if n < 10 then "0" ++ toString n else toString n

def pad4 (n : ℕ) : String :=
  let raw := toString n
  ⟨List.replicate (4 - raw.data.length) '0' ++ raw.data⟩

/-- Python `date.isoformat()`. -/
def dateIso (d : PyDate) : String :=
  pad4 d.year.natAbs ++ "-" ++ pad2 d.month.natAbs ++ "-" ++ pad2 d.day.natAbs

def parseNDigits (n : ℕ) (l : List Char) : Option (ℕ × List Char) :=
  let pre := l.take n
  if pre.length = n ∧ pre.all Char.isDigit then some (digitsVal pre, l.drop n)
  else none

/-- Strict `YYYY-MM-DD` parse with calendar validation, the common case of
`date.fromisoformat` (the additional compact/week formats accepted by
Python 3.11 are not modelled; no claim depends on them). -/
def parseIsoDateChars (l : List Char) : Option PyDate :=
  match parseNDigits 4 l with
  | none => none
  | some (y, r1) =>
    match r1 with
    | '-' :: r2 =>
      match parseNDigits 2 r2 with
      | none => none
      | some (m, r3) =>
        match r3 with
        | '-' :: r4 =>
          match parseNDigits 2 r4 with
          | none => none
          | some (d, r5) =>
            if r5.isEmpty ∧ 1 ≤ m ∧ m ≤ 12 ∧ 1 ≤ d ∧ (d : ℤ) ≤ daysInMonth y m then
              some ⟨y, m, d⟩
            else none
        | _ => none
    | _ => none

/-- `_parse_date` from `canary/scoring/baseline.py`: strip, take the first
ten characters, `date.fromisoformat`. -/
def parseDate (value : String) : Option PyDate :=
  if value.data.isEmpty then none
  else parseIsoDateChars ((pyStripChars value.data).take 10)

/-! ## CVSS banding and the CVSS v3 base-score evaluator
(`canary/collectors/jenkins_advisories.py` and `canary/scoring/baseline.py`) -/

/-- `_cvss_base_score_to_severity_label` (jenkins_advisories.py, lines
22-44): findings-level banding, lower-case labels, `s <= 0.0` gives
`"none"`. -/
def cvssBaseScoreToSeverityLabel (score : Option PyNum) : Option String :=
  match score with
  | none => none
  | some s =>
    if s.leB (.fin 0) then some "none"
    else if s.ltB (.fin 4) then some "low"
    else if s.ltB (.fin 7) then some "medium"
    else if s.ltB (.fin 9) then some "high"
    else some "critical"

/-- `_cvss_base_score_to_label` (baseline.py, lines 277-293): scoring-level
banding, capitalised labels, `s == 0.0` gives `"None"`. -/
def cvssBaseScoreToLabel (score : Option PyNum) : Option String :=
  match score with
  | none => none
  | some s =>
    if s.eqB (.fin 0) then some "None"
    else if s.ltB (.fin 4) then some "Low"
    else if s.ltB (.fin 7) then some "Medium"
    else if s.ltB (.fin 9) then some "High"
    else some "Critical"

/-- `_SEVERITY_BONUS` (baseline.py, lines 296-302), accessed through
`.get(str(label), 0)`, so a `None` label reads the `"None"` entry. -/
def severityBonus (label : Option String) : ℤ :=
  let key := match label with | none => "None" | some l => l
  if key = "None" then 0
  else if key = "Low" then 1
  else if key = "Medium" then 3
  else if key = "High" then 6
  else if key = "Critical" then 10
  else 0

/-- `_cvss3_round_up_1_decimal` (jenkins_advisories.py, lines 358-362):
`math.ceil(x * 10.0 + 1e-10) / 10.0`. -/
def cvss3RoundUp1Decimal (x : ℚ) : ℚ :=
  ((⌈x * 10 + 1 / 10 ^ 10⌉ : ℤ) : ℚ) / 10

/-- Last-binding lookup in the metric map (Python dict assignment in a loop
keeps the last value for a repeated key). -/
def metricLookup (metrics : List (String × String)) (k : String) : Option String :=
  (metrics.reverse.find? fun p => p.1 = k).map Prod.snd

/-- Metric split of `_cvss3_base_score`: `vector.split("/")`, skip the
version part, keep `k:v` pairs (first colon splits). -/
def cvss3Metrics (vector : String) : List (String × String) :=
  ((splitAll '/' vector.data).drop 1).foldl
    (fun acc p =>
      match splitFirst ':' p with
      | none => acc
      | some (k, v) => acc ++ [(⟨k⟩, ⟨v⟩)])
    []

def cvssAvWeight : String → Option ℚ
  | "N" => some (85 / 100)
  | "A" => some (62 / 100)
  | "L" => some (55 / 100)
  | "P" => some (2 / 10)
  | _ => none

def cvssAcWeight : String → Option ℚ
  | "L" => some (77 / 100)
  | "H" => some (44 / 100)
  | _ => none

def cvssUiWeight : String → Option ℚ
  | "N" => some (85 / 100)
  | "R" => some (62 / 100)
  | _ => none

def cvssCiaWeight : String → Option ℚ
  | "N" => some 0
  | "L" => some (22 / 100)
  | "H" => some (56 / 100)
  | _ => none

def cvssPrWeightUnchanged : String → Option ℚ
  | "N" => some (85 / 100)
  | "L" => some (62 / 100)
  | "H" => some (27 / 100)
  | _ => none

def cvssPrWeightChanged : String → Option ℚ
  | "N" => some (85 / 100)
  | "L" => some (68 / 100)
  | "H" => some (5 / 10)
  | _ => none

/-- `_cvss3_base_score` (jenkins_advisories.py, lines 365-415).  The final
`float(f"{base:.1f}")` round-trip is the identity on the already-rounded
one-decimal value and is modelled as such. -/
def cvss3BaseScore (vector : String) : Option PyNum :=
  if ¬ charsStartsWith "CVSS:3".data vector.data then none
  else
    let metrics := cvss3Metrics vector
    let s : Option String := metricLookup metrics "S"
    let scopeChanged : Bool := s = some "C"
    let prTable := if scopeChanged then cvssPrWeightChanged else cvssPrWeightUnchanged
    match metricLookup metrics "AV" >>= cvssAvWeight,
        metricLookup metrics "AC" >>= cvssAcWeight,
        metricLookup metrics "UI" >>= cvssUiWeight,
        metricLookup metrics "PR" >>= prTable,
        metricLookup metrics "C" >>= cvssCiaWeight,
        metricLookup metrics "I" >>= cvssCiaWeight,
        metricLookup metrics "A" >>= cvssCiaWeight with
    | some av, some ac, some ui, some pr, some c, some i, some a =>
      let exploitability : ℚ := (822 / 100) * av * ac * pr * ui
      let iscBase : ℚ := 1 - (1 - c) * (1 - i) * (1 - a)
      let impact : ℚ :=
        if scopeChanged then (752 / 100) * (iscBase - 29 / 1000) - (325 / 100) * (iscBase - 2 / 100) ^ 15
        else (642 / 100) * iscBase
      if impact ≤ 0 then some (.fin 0)
      else if scopeChanged then
        some (.fin (cvss3RoundUp1Decimal (min ((108 / 100) * (impact + exploitability)) 10)))
      else
        some (.fin (cvss3RoundUp1Decimal (min (impact + exploitability) 10)))
    | _, _, _, _, _, _, _ => none

/-! ## Claims C4 and C5: severity banding and CVSS evaluator exactness -/

theorem asciiLower_labels :
    asciiLower "None" = "none" ∧ asciiLower "Low" = "low" ∧
    asciiLower "Medium" = "medium" ∧ asciiLower "High" = "high" ∧
    asciiLower "Critical" = "critical" := by
  refine ⟨?_, ?_, ?_, ?_, ?_⟩ <;> rfl

/-- Claim C4 counterexample: it is not true that for every numeric score the
findings-level banding (`_cvss_base_score_to_severity_label`) and the
scoring-level banding (`_cvss_base_score_to_label`) agree up to letter case;
they disagree at the concrete input `-1.0`, where the former returns
`"none"` (its guard is `s <= 0.0`) and the latter returns `"Low"` (its guard
is `s == 0.0` followed by `s < 4.0`). -/
theorem claim_C4_counterexample :
    cvssBaseScoreToSeverityLabel (some (.fin (-1))) = some "none" ∧
    (cvssBaseScoreToLabel (some (.fin (-1)))).map asciiLower = some "low" ∧
    ¬ (∀ s : ℚ,
        (cvssBaseScoreToLabel (some (.fin s))).map asciiLower =
          cvssBaseScoreToSeverityLabel (some (.fin s))) := by
  refine ⟨?_, ?_, ?_⟩
  · rw [cvssBaseScoreToSeverityLabel]
    rw [if_pos (by norm_num [PyNum.leB])]
  · rw [cvssBaseScoreToLabel]
    rw [if_neg (by norm_num [PyNum.eqB]), if_pos (by norm_num [PyNum.ltB])]
    rfl
  · intro h
    have h1 := h (-1)
    rw [cvssBaseScoreToSeverityLabel, if_pos (by norm_num [PyNum.leB])] at h1
    rw [cvssBaseScoreToLabel, if_neg (by norm_num [PyNum.eqB]),
      if_pos (by norm_num [PyNum.ltB])] at h1
    simp only [Option.map_some'] at h1
    have h2 : asciiLower "Low" = "none" := Option.some.inj h1
    exact absurd (congrArg String.data h2) (by decide)

/-- Claim C4 (amended): for every **non-negative** numeric score `s`, the
findings-level banding (`_cvss_base_score_to_severity_label` in
jenkins_advisories) and the scoring-level banding (`_cvss_base_score_to_label`
in baseline) return the same severity label up to letter case, and both
follow the fixed bands `s == 0 → none`, `0 < s < 4 → low`, `4 ≤ s < 7 →
medium`, `7 ≤ s < 9 → high`, `s ≥ 9 → critical`.  (For negative scores,
which no CVSS v3 base score attains, the two functions disagree: see the
counterexample.) -/
theorem claim_C4 (s : ℚ) (hs : 0 ≤ s) :
    (cvssBaseScoreToLabel (some (.fin s))).map asciiLower =
      cvssBaseScoreToSeverityLabel (some (.fin s)) ∧
    cvssBaseScoreToSeverityLabel (some (.fin s)) =
      some (if s = 0 then "none" else if s < 4 then "low"
        else if s < 7 then "medium" else if s < 9 then "high"
        else "critical") := by
  rw [cvssBaseScoreToLabel, cvssBaseScoreToSeverityLabel]
  simp only [PyNum.eqB, PyNum.leB, PyNum.ltB, decide_eq_true_eq]
  have hle : (s ≤ 0) = (s = 0) := by
    apply propext
    exact ⟨fun h => le_antisymm h hs, fun h => le_of_eq h⟩
  simp only [hle]
  constructor
  · split_ifs <;> rfl
  · split_ifs <;> rfl

/-- Concrete witness for the amended claim C4, at score `5.0` (label
`medium`). -/
theorem claim_C4_witness :
    (0 : ℚ) ≤ 5 ∧
    ((cvssBaseScoreToLabel (some (.fin 5))).map asciiLower =
        cvssBaseScoreToSeverityLabel (some (.fin 5)) ∧
      cvssBaseScoreToSeverityLabel (some (.fin 5)) =
        some (if (5 : ℚ) = 0 then "none" else if (5 : ℚ) < 4 then "low"
          else if (5 : ℚ) < 7 then "medium" else if (5 : ℚ) < 9 then "high"
          else "critical")) :=
  ⟨by norm_num, claim_C4 5 (by norm_num)⟩

/-- Claim C5: `_cvss3_base_score` applied to the vector string
`CVSS:3.0/AV:N/AC:H/PR:L/UI:R/S:C/C:L/I:L/A:N` returns exactly `4.4`
(CVSS v3 base formula with round-up-to-one-decimal, ceiling not nearest),
and the severity banding maps `4.4` to the label `medium`. -/
theorem claim_C5 :
    cvss3BaseScore "CVSS:3.0/AV:N/AC:H/PR:L/UI:R/S:C/C:L/I:L/A:N" =
      some (.fin (4.4 : ℚ)) ∧
    cvssBaseScoreToSeverityLabel
      (cvss3BaseScore "CVSS:3.0/AV:N/AC:H/PR:L/UI:R/S:C/C:L/I:L/A:N") =
      some "medium" := by
  have hbase : cvss3BaseScore "CVSS:3.0/AV:N/AC:H/PR:L/UI:R/S:C/C:L/I:L/A:N" =
      some (.fin (4.4 : ℚ)) := by
    have hm : cvss3Metrics "CVSS:3.0/AV:N/AC:H/PR:L/UI:R/S:C/C:L/I:L/A:N" =
        [("AV","N"),("AC","H"),("PR","L"),("UI","R"),("S","C"),("C","L"),("I","L"),("A","N")] := by
      decide
    rw [cvss3BaseScore, if_neg (by decide), hm]
    simp only []
    rw [show metricLookup [("AV","N"),("AC","H"),("PR","L"),("UI","R"),("S","C"),("C","L"),("I","L"),("A","N")] "AV" = some "N" from by decide,
       show metricLookup [("AV","N"),("AC","H"),("PR","L"),("UI","R"),("S","C"),("C","L"),("I","L"),("A","N")] "AC" = some "H" from by decide,
       show metricLookup [("AV","N"),("AC","H"),("PR","L"),("UI","R"),("S","C"),("C","L"),("I","L"),("A","N")] "UI" = some "R" from by decide,
       show metricLookup [("AV","N"),("AC","H"),("PR","L"),("UI","R"),("S","C"),("C","L"),("I","L"),("A","N")] "PR" = some "L" from by decide,
       show metricLookup [("AV","N"),("AC","H"),("PR","L"),("UI","R"),("S","C"),("C","L"),("I","L"),("A","N")] "C" = some "L" from by decide,
       show metricLookup [("AV","N"),("AC","H"),("PR","L"),("UI","R"),("S","C"),("C","L"),("I","L"),("A","N")] "I" = some "L" from by decide,
       show metricLookup [("AV","N"),("AC","H"),("PR","L"),("UI","R"),("S","C"),("C","L"),("I","L"),("A","N")] "A" = some "N" from by decide,
       show metricLookup [("AV","N"),("AC","H"),("PR","L"),("UI","R"),("S","C"),("C","L"),("I","L"),("A","N")] "S" = some "C" from by decide,
       show (decide ((some "C" : Option String) = some "C")) = true from rfl]
    simp only [if_true, Option.bind_eq_bind, Option.some_bind]
    rw [show cvssAvWeight "N" = some (85/100) from rfl,
       show cvssAcWeight "H" = some (44/100) from rfl,
       show cvssUiWeight "R" = some (62/100) from rfl,
       show cvssPrWeightChanged "L" = some (68/100) from rfl,
       show cvssCiaWeight "L" = some (22/100) from rfl,
       show cvssCiaWeight "N" = some 0 from rfl]
    simp only []
    norm_num [cvss3RoundUp1Decimal, min_def]
    have hc : (⌈(404631409346528559605825324967317630193593011079558401 : ℚ) /
        9313225746154785156250000000000000000000000000000000⌉ : ℤ) = 44 := by
      rw [Int.ceil_eq_iff]
      constructor <;> norm_num
    rw [hc]
    norm_num
  refine ⟨hbase, ?_⟩
  rw [hbase, cvssBaseScoreToSeverityLabel]
  rw [if_neg (by norm_num [PyNum.leB]), if_neg (by norm_num [PyNum.ltB]),
    if_pos (by norm_num [PyNum.ltB])]

/-! ## URL parsing (CPython 3.11 `urllib.parse`, as imported by
`canary/collectors/jenkins_advisories.py`) -/

/-- The six components of `urllib.parse.urlparse`. -/
structure ParseResult where
  scheme : List Char
  netloc : List Char
  path : List Char
  params : List Char
  query : List Char
  fragment : List Char
deriving DecidableEq

/-- A character `urlsplit` keeps (not tab, CR or LF). -/
def cleanChar (c : Char) : Bool := ¬ (c = '\t' ∨ c = '\r' ∨ c.toNat = 10)

/-- `_UNSAFE_URL_BYTES_TO_REMOVE`: `urlsplit` deletes every tab, CR and LF
from the url. -/
def removeUnsafeUrlBytes (l : List Char) : List Char :=
  l.filter cleanChar

def schemeCharsList : List Char :=
  "abcdefghijklmnopqrstuvwxyzABCDEFGHIJKLMNOPQRSTUVWXYZ0123456789+-.".data

def isAsciiAlpha (c : Char) : Bool :=
  ('a' ≤ c ∧ c ≤ 'z') ∨ ('A' ≤ c ∧ c ≤ 'Z')

/-- Scheme extraction step of `urlsplit`: a non-empty prefix before the
first `:`, starting with an ASCII letter and made of scheme characters, is
taken (lower-cased) as the scheme. -/
def splitScheme (url : List Char) : List Char × List Char :=
  match splitFirst ':' url with
  | some (pre, post) =>
    if (match pre with | [] => false | c :: _ => isAsciiAlpha c) &&
        pre.all (fun c => schemeCharsList.contains c) then
      (asciiLowerChars pre, post)
    else ([], url)
  | none => ([], url)

def isNetlocDelim (c : Char) : Bool := c = '/' ∨ c = '?' ∨ c = '#'

/-- `_splitnetloc(url, 2)` applied to `url.drop 2`: everything up to the
first of `/?#`. -/
def splitNetloc (rest : List Char) : List Char × List Char :=
  (rest.takeWhile (fun c => ¬ isNetlocDelim c),
   rest.dropWhile (fun c => ¬ isNetlocDelim c))

/-- The `Invalid IPv6 URL` guard of `urlsplit`: a `[` without `]` (or
conversely) raises `ValueError`. -/
def bracketOk (netloc : List Char) : Bool :=
  (netloc.contains '[') = (netloc.contains ']')

/-- `_checknetloc`: accepts every ASCII netloc; the NFKC-normalization
rejection of some non-ASCII netlocs depends on `unicodedata` and is not
modelled (it is a function of the netloc alone, it is caught by the
canonicalizer like every other `ValueError`, and no claim settled here
depends on a non-ASCII netloc). -/
def checknetlocOk (_netloc : List Char) : Bool := true

/-- The five components of `urllib.parse.urlsplit`. -/
structure SplitResult where
  scheme : List Char
  netloc : List Char
  path : List Char
  query : List Char
  fragment : List Char
deriving DecidableEq

/-- The fragment split of `urlsplit` (`url.split('#', 1)` when `'#' in
url`). -/
def splitFragment (l : List Char) : List Char × List Char :=
  match splitFirst '#' l with
  | some (a, b) => (a, b)
  | none => (l, [])

/-- The query split of `urlsplit` (`url.split('?', 1)` when `'?' in
url`). -/
def splitQuery (l : List Char) : List Char × List Char :=
  match splitFirst '?' l with
  | some (a, b) => (a, b)
  | none => (l, [])

/-- `urllib.parse.urlsplit` (CPython 3.11, `allow_fragments=True`); the
raised `ValueError` is the `.error` case. -/
def urlsplitE (url0 : List Char) : Except Unit SplitResult :=
  let url1 := removeUnsafeUrlBytes url0
  let sp := splitScheme url1
  let nl :=
    if charsStartsWith "//".data sp.2 then splitNetloc (sp.2.drop 2)
    else ([], sp.2)
  if ¬ bracketOk nl.1 then .error ()
  else
    let fr := splitFragment nl.2
    let qr := splitQuery fr.1
    if ¬ checknetlocOk nl.1 then .error ()
    else .ok ⟨sp.1, nl.1, qr.1, qr.2, fr.2⟩

def usesParamsList : List (List Char) :=
  ["", "ftp", "hdl", "prospero", "http", "imap", "https", "shttp", "rtsp",
   "rtspu", "sip", "sips", "mms", "sftp", "tel"].map String.data

def usesNetlocList : List (List Char) :=
  ["", "ftp", "http", "gopher", "nntp", "telnet", "imap", "wais", "file",
   "mms", "https", "shttp", "snews", "prospero", "rtsp", "rtspu", "rsync",
   "svn", "svn+ssh", "sftp", "nfs", "git", "git+ssh", "ws", "wss"].map String.data

/-- Split at the last occurrence of `c`: `l = pre ++ c :: post` with `c`
not in `post`. -/
def splitLast (c : Char) (l : List Char) : Option (List Char × List Char) :=
  (splitFirst c l.reverse).map fun p => (p.2.reverse, p.1.reverse)

/-- `_splitparams` (CPython): split path parameters after the last slash. -/
def splitParams (url : List Char) : List Char × List Char :=
  match splitLast '/' url with
  | some (a, b) =>
    match splitFirst ';' b with
    | none => (url, [])
    | some (b1, b2) => (a ++ '/' :: b1, b2)
  | none =>
    match splitFirst ';' url with
    | some (u1, u2) => (u1, u2)
    | none => (url.dropLast, url)

/-- `urllib.parse.urlparse` (CPython 3.11). -/
def urlparseE (url : List Char) : Except Unit ParseResult :=
  match urlsplitE url with
  | .error e => .error e
  | .ok s =>
    if usesParamsList.contains s.scheme ∧ s.path.contains ';' then
      let pp := splitParams s.path
      .ok ⟨s.scheme, s.netloc, pp.1, pp.2, s.query, s.fragment⟩
    else
      .ok ⟨s.scheme, s.netloc, s.path, [], s.query, s.fragment⟩

/-- `urllib.parse.urlunsplit` (CPython 3.11). -/
def urlunsplit (scheme netloc url query fragment : List Char) : List Char :=
  let url2 :=
    if ¬ netloc.isEmpty ∨
        (¬ scheme.isEmpty ∧ usesNetlocList.contains scheme ∧
          ¬ charsStartsWith "//".data url) then
      let url1 :=
        if ¬ url.isEmpty ∧ ¬ charsStartsWith "/".data url then '/' :: url
        else url
      '/' :: '/' :: (netloc ++ url1)
    else url
  let url3 := if ¬ scheme.isEmpty then scheme ++ ':' :: url2 else url2
  let url4 := if ¬ query.isEmpty then url3 ++ '?' :: query else url3
  if ¬ fragment.isEmpty then url4 ++ '#' :: fragment else url4

/-- `urllib.parse.urlunparse` (CPython 3.11). -/
def urlunparse (p : ParseResult) : List Char :=
  let u := if ¬ p.params.isEmpty then p.path ++ ';' :: p.params else p.path
  urlunsplit p.scheme p.netloc u p.query p.fragment

/-! ## `_canonicalize_jenkins_url` and URL helpers
(`canary/collectors/jenkins_advisories.py`, lines 78-123, 150-159) -/

/-- The component rewrite of `_canonicalize_jenkins_url`: default/upgrade
the scheme to `https`, send the bare host `jenkins.io` to
`www.jenkins.io` (exact match only). -/
def canonTransform (p : ParseResult) : ParseResult :=
  let scheme0 := if p.scheme.isEmpty then "https".data else p.scheme
  let scheme1 := if scheme0 = "http".data then "https".data else scheme0
  let netloc1 := if p.netloc = "jenkins.io".data then "www.jenkins.io".data else p.netloc
  { p with scheme := scheme1, netloc := netloc1 }

/-- The `try:` body of `_canonicalize_jenkins_url` for a non-empty input:
strip, parse (which may raise `ValueError`), rewrite components, unparse. -/
def canonicalizeAttempt (s : String) : Except Unit String :=
  match urlparseE (pyStripChars s.data) with
  | .error e => .error e
  | .ok p => .ok ⟨urlunparse (canonTransform p)⟩

/-- `_canonicalize_jenkins_url` (jenkins_advisories.py, lines 78-109):
falsy input is returned unchanged, the `ValueError` of the parse is caught
and mapped to `None`. -/
def canonicalizeJenkinsUrl (u : Option String) : Option String :=
  match u with
  | none => none
  | some s =>
    if s.data.isEmpty then some s
    else
      match canonicalizeAttempt s with
      | .ok v => some v
      | .error _ => none

/-- `_strip_query_fragment` (jenkins_advisories.py, lines 112-118). -/
def stripQueryFragment (url : String) : String :=
  match urlparseE url.data with
  | .error _ => url
  | .ok p => ⟨urlunparse { p with query := [], fragment := [] }⟩

/-- `_normalize_advisory_url` (jenkins_advisories.py, lines 121-123):
`_strip_query_fragment(_canonicalize_jenkins_url(url) or url)`. -/
def normalizeAdvisoryUrl (url : String) : String :=
  let c := canonicalizeJenkinsUrl (some url)
  stripQueryFragment
    (match c with
     | some v => if v.data.isEmpty then url else v
     | none => url)

def charsEndsWith (pat l : List Char) : Bool :=
  charsStartsWith pat.reverse l.reverse

/-- `_date_from_advisory_url` (jenkins_advisories.py, lines 150-159): match
`/security/advisory/YYYY-MM-DD/?` at the end of the query/fragment-stripped
URL, then `date.fromisoformat` (which validates the calendar date). -/
def dateFromAdvisoryUrl (url : String) : Option PyDate :=
  let cs0 := (stripQueryFragment url).data
  let cs := if cs0.getLast? = some '/' then cs0.dropLast else cs0
  if cs.length < 10 then none
  else
    let datePart := cs.drop (cs.length - 10)
    let pre := cs.take (cs.length - 10)
    if charsEndsWith "/security/advisory/".data pre then
      parseIsoDateChars datePart
    else none

/-! ## Claim C8: crash-freedom of `_canonicalize_jenkins_url` -/

/-- Claim C8: for every input string `u`, `_canonicalize_jenkins_url(u)`
returns either a URL string or the null sentinel and never raises: the only
raising operation in its body is the URL parse, whose `ValueError` the
`except` clause maps to `None`; in particular the input `"//[\n"` (slash,
slash, open bracket, newline) yields null. -/
theorem claim_C8 :
    (∀ s : String, ∀ e : Unit, canonicalizeAttempt s = .error e →
      canonicalizeJenkinsUrl (some s) = none) ∧
    (∀ u : String, canonicalizeJenkinsUrl (some u) = none ∨
      ∃ v : String, canonicalizeJenkinsUrl (some u) = some v) ∧
    canonicalizeJenkinsUrl (some "//[\n") = none := by
  refine ⟨?_, ?_, by decide⟩
  · intro s e h
    rw [canonicalizeJenkinsUrl]
    by_cases hs : s.data.isEmpty
    · rw [if_pos hs]
      exfalso
      rw [canonicalizeAttempt] at h
      have : pyStripChars s.data = [] := by
        cases hd : s.data with
        | nil => rfl
        | cons a l => rw [hd] at hs; simp at hs
      rw [this] at h
      simp [urlparseE, urlsplitE, removeUnsafeUrlBytes, splitScheme, splitFirst,
        splitNetloc, charsStartsWith, bracketOk, checknetlocOk, usesParamsList,
        splitFragment, splitQuery] at h
    · rw [if_neg hs, h]
  · intro u
    cases h : canonicalizeJenkinsUrl (some u) with
    | none => exact Or.inl rfl
    | some v => exact Or.inr ⟨v, rfl⟩

/-- Concrete discharge of the hypotheses of `claim_C8`: the body of the
canonicalizer raises on `"//["` (unmatched bracket) and the `except` clause
turns that into null. -/
theorem claim_C8_witness :
    canonicalizeAttempt "//[" = .error () ∧
    canonicalizeJenkinsUrl (some "//[") = none :=
  ⟨rfl, claim_C8.1 "//[" () rfl⟩

/-! ## Claim C9: idempotence of `_canonicalize_jenkins_url` -/

/-- Claim C9 counterexample: canonicalization is not idempotent.  At the
input `"https://www.jenkins.io/x ?"` the empty query is dropped but the
trailing space of the path survives into the output
`"https://www.jenkins.io/x "`, and the second application strips that space
first, returning `"https://www.jenkins.io/x"`. -/
theorem claim_C9_counterexample :
    canonicalizeJenkinsUrl (canonicalizeJenkinsUrl (some "https://www.jenkins.io/x ?")) ≠
      canonicalizeJenkinsUrl (some "https://www.jenkins.io/x ?") := by
  decide

/-! ## `merge_advisory_records`
(`canary/collectors/jenkins_advisories.py`, lines 167-312) -/

/-- Python string `<` (code-point lexicographic). -/
def charsLtB (a b : List Char) : Bool := ! charsLeB b a

/-- Builtin `min(a, b)` on strings: keeps `a` unless `b < a`. -/
def pyMinStr (a b : String) : String := if charsLtB b.data a.data then b else a

/-- Dict update `d[k] = v` on a JSON object: replace in place, or append a
new key at the end (Python dict insertion-order semantics).  Non-dicts are
returned unchanged (the call sites only reach dicts). -/
def jSet (j : JVal) (k : String) (v : JVal) : JVal :=
  match j with
  | .obj kvs => .obj (jSetFields kvs k v)
  | other => other
where
  jSetFields : List (String × JVal) → String → JVal → List (String × JVal)
    | [], k, v => [(k, v)]
    | (k', v') :: rest, k, v =>
      if k' = k then (k', v) :: rest else (k', v') :: jSetFields rest k v

/-- Python `x in (None, "")`. -/
def isNoneOrEmpty : JVal → Bool
  | .null => true
  | .str s => s.data.isEmpty
  | _ => false

def assocFind {κ α : Type} [DecidableEq κ] (l : List (κ × α)) (k : κ) : Option α :=
  (l.find? fun p => p.1 = k).map Prod.snd

def assocReplace {κ α : Type} [DecidableEq κ] : List (κ × α) → κ → α → List (κ × α)
  | [], _, _ => []
  | (k', v') :: rest, k, v =>
    if k' = k then (k', v) :: rest else (k', v') :: assocReplace rest k v

/-- Dict write with insertion-order semantics. -/
def assocUpsert {κ α : Type} [DecidableEq κ] (l : List (κ × α)) (k : κ) (v : α) :
    List (κ × α) :=
  match assocFind l k with
  | some _ => assocReplace l k v
  | none => l ++ [(k, v)]

/-- A raw advisory record, at the shape `merge_advisory_records` touches.
The records are Python dicts; the fields the merger reads and writes are
modelled as named fields, with `JVal.null` standing for both an absent key
and an explicit `None` (the two are only distinguishable through
`key_for`'s `""` default, which collector-produced records never exercise).
`security_warning_ids` is modelled at its collector output type
`list[str]`; applying the code's `sorted(set(...))` to any other truthy
payload would raise inside `sorted` and is outside the modelled shape. -/
structure MRec where
  source : JVal
  rtype : JVal
  plugin_id : JVal
  advisory_id : JVal
  url : JVal
  published_date : JVal
  title : JVal
  security_warning_ids : List String
  active_security_warning : JVal
  vulnerabilities : JVal
  mergedFromCount : JVal

/-- `key_for` (lines 184-190): `str(r.get(field, ""))` for the four key
fields. -/
def keyStr : JVal → String
  | .null => ""
  | v => pyStr v

def keyFor (r : MRec) : String × String × String × String :=
  (keyStr r.source, keyStr r.rtype, keyStr r.plugin_id, keyStr r.advisory_id)

/-- Vulnerability-list normalization (lines 216-226): keep dict entries
with a truthy `security_warning_id`, coercing that id to `str`. -/
def normVulns (l : List JVal) : List JVal :=
  l.filterMap fun v =>
    match v with
    | .obj _ =>
      let sid := JVal.getD v "security_warning_id" .null
      if sid.truthy then some (jSet v "security_warning_id" (.str (pyStr sid)))
      else none
    | _ => none

/-- URL canonicalization and date derivation for recognized jenkins
advisory records (lines 199-209). -/
def normalizeRecJenkins (r : MRec) : MRec :=
  let url1 := if r.url.truthy then JVal.str (normalizeAdvisoryUrl (pyStr r.url)) else r.url
  let urlStr := if url1.truthy then pyStr url1 else ""
  match dateFromAdvisoryUrl urlStr with
  | some d =>
    let aid := if ¬ r.advisory_id.truthy then JVal.str (dateIso d) else r.advisory_id
    let pd := if ¬ r.published_date.truthy then JVal.str (dateIso d) else r.published_date
    { r with url := url1, advisory_id := aid, published_date := pd }
  | none => { r with url := url1 }

/-- Per-record normalization on ingest (lines 198-226). -/
def normalizeRec (r : MRec) : MRec :=
  let r1 :=
    match r.source, r.rtype with
    | .str s, .str t =>
      if s = "jenkins" ∧ t = "advisory" then normalizeRecJenkins r else r
    | _, _ => r
  let r2 := { r1 with security_warning_ids := sortedDedup r1.security_warning_ids }
  match r2.vulnerabilities with
  | .arr l => { r2 with vulnerabilities := .arr (normVulns l) }
  | _ => r2

/-- The merger's local `host` helper (lines 192-195): `""` for falsy input,
otherwise `urlparse(u).netloc` (raising on malformed input). -/
def hostE (u : JVal) : Except Unit String :=
  if ¬ u.truthy then .ok ""
  else
    match u with
    | .str s =>
      match urlparseE s.data with
      | .error e => .error e
      | .ok p => .ok ⟨p.netloc⟩
    | _ => .error ()

/-- URL merge preference (lines 237-244): prefer the canonical host
`www.jenkins.io`, never overwrite a present canonical-host URL; evaluation
order and short-circuiting follow the Python condition. -/
def urlStep (base r : MRec) : Except Unit JVal :=
  if ¬ r.url.truthy then .ok base.url
  else if ¬ base.url.truthy then .ok r.url
  else
    match hostE r.url with
    | .error e => .error e
    | .ok hn =>
      if hn = "www.jenkins.io" then
        match hostE base.url with
        | .error e => .error e
        | .ok hb => if ¬ hb = "www.jenkins.io" then .ok r.url else .ok base.url
      else .ok base.url

/-- Key of a vulnerability dict: `v.get("security_warning_id")`.  After
normalization every kept entry has a string id. -/
def vulnKey (v : JVal) : Option String :=
  match JVal.getD v "security_warning_id" .null with
  | .str s => some s
  | _ => none

/-- `{v.get("security_warning_id"): v for v in (x or []) if isinstance(v, dict)}`
(lines 269-278); iterating a truthy non-iterable raises. -/
def buildVulnDict (x : JVal) : Except Unit (List (Option String × JVal)) :=
  let x1 := if x.truthy then x else .arr []
  match JVal.iterE x1 with
  | .error e => .error e
  | .ok elems =>
    .ok (elems.foldl (fun acc e => if e.isObj then assocUpsert acc (vulnKey e) e else acc) [])

/-- Field-wise merge of two vulnerability dicts for the same id
(lines 285-297): prefer non-empty `severity_label`/`url_fragment`, merge the
`cvss` sub-dict keeping first non-null values. -/
def vulnFieldMerge (b v : JVal) : JVal :=
  let b1 :=
    if isNoneOrEmpty (JVal.getD b "severity_label" .null) = false then b
    else if (JVal.getD v "severity_label" .null).truthy then
      jSet b "severity_label" (JVal.getD v "severity_label" .null)
    else b
  let b2 :=
    if isNoneOrEmpty (JVal.getD b1 "url_fragment" .null) = false then b1
    else if (JVal.getD v "url_fragment" .null).truthy then
      jSet b1 "url_fragment" (JVal.getD v "url_fragment" .null)
    else b1
  match JVal.getD v "cvss" .null with
  | .obj vkvs =>
    let bcv0 := JVal.getD b2 "cvss" .null
    let bcv :=
      match bcv0 with
      | .obj bk => bk
      | _ => []
    let merged := vkvs.foldl
      (fun acc kv =>
        if isNoneOrEmpty ((JVal.lookup kv.1 acc).getD .null) ∧ ¬ isNoneOrEmpty kv.2 then
          assocUpsert acc kv.1 kv.2
        else acc)
      bcv
    jSet b2 "cvss" (.obj merged)
  | _ => b2

/-- The vulnerability-union step (lines 268-302): union keyed by
`security_warning_id`, field-wise preference for the existing entry, output
sorted by id; an empty union leaves the base list unchanged. -/
def vulnStep (base r : MRec) : Except Unit JVal :=
  match buildVulnDict base.vulnerabilities with
  | .error e => .error e
  | .ok bd =>
    match buildVulnDict r.vulnerabilities with
    | .error e => .error e
    | .ok nd =>
      let merged := nd.foldl
        (fun acc p =>
          match p.1 with
          | none => acc
          | some s =>
            if s.data.isEmpty then acc
            else
              match assocFind acc (some s) with
              | none => acc ++ [(some s, p.2)]
              | some b => assocReplace acc (some s) (vulnFieldMerge b p.2))
        bd
      if merged.isEmpty then .ok base.vulnerabilities
      else
        let sortedIds :=
          List.insertionSort charsLe
            ((((merged.filterMap fun p => p.1).filter fun s => ¬ s.isEmpty).map String.data))
        .ok (.arr (sortedIds.map fun sid =>
          (assocFind merged (some (⟨sid⟩ : String))).getD .null))

/-- Pairwise merge of a new normalized record `r` into the running `base`
(lines 235-304). -/
def mergeInto (base r : MRec) : Except Unit MRec :=
  match urlStep base r with
  | .error e => .error e
  | .ok newUrl =>
    let ids := sortedDedup (base.security_warning_ids ++ r.security_warning_ids)
    let active := JVal.bool (base.active_security_warning.truthy || r.active_security_warning.truthy)
    let pd :=
      if base.published_date.truthy ∧ r.published_date.truthy then
        JVal.str (pyMinStr (pyStr base.published_date) (pyStr r.published_date))
      else if ¬ base.published_date.truthy ∧ r.published_date.truthy then r.published_date
      else base.published_date
    let newTitle :=
      if ¬ base.title.truthy ∧ r.title.truthy then r.title else base.title
    match vulnStep base r with
    | .error e => .error e
    | .ok newVulns =>
      .ok { base with
        url := newUrl,
        security_warning_ids := ids,
        active_security_warning := active,
        published_date := pd,
        title := newTitle,
        vulnerabilities := newVulns }

/-- The dedupe key type `(source, type, plugin_id, advisory_id)`. -/
abbrev DedupeKey := String × String × String × String

def bumpCount (counts : List (DedupeKey × ℕ)) (k : DedupeKey) : List (DedupeKey × ℕ) :=
  match assocFind counts k with
  | some c => assocReplace counts k (c + 1)
  | none => counts ++ [(k, 1)]

/-- Main loop of `merge_advisory_records` (lines 197-304): normalize each
record, group by dedupe key in insertion order, merge within a group. -/
def mergeLoop : List MRec → List (DedupeKey × MRec) → List (DedupeKey × ℕ) →
    Except Unit (List (DedupeKey × MRec) × List (DedupeKey × ℕ))
  | [], merged, counts => .ok (merged, counts)
  | r :: rest, merged, counts =>
    let n := normalizeRec r
    let k := keyFor n
    let counts1 := bumpCount counts k
    match assocFind merged k with
    | none => mergeLoop rest (merged ++ [(k, n)]) counts1
    | some base =>
      match mergeInto base n with
      | .error e => .error e
      | .ok b => mergeLoop rest (assocReplace merged k b) counts1

/-- `merge_advisory_records` (lines 167-312): the output keeps first-seen
key order and stamps `_merged_from_count` on records merged from more than
one input. -/
def mergeAdvisoryRecords (records : List MRec) : Except Unit (List MRec) :=
  match mergeLoop records [] [] with
  | .error e => .error e
  | .ok (merged, counts) =>
    .ok (merged.map fun p =>
      match assocFind counts p.1 with
      | some c =>
        if 1 < c then { p.2 with mergedFromCount := .num (.fin c) } else p.2
      | none => p.2)

/-! ## Claim C3: order (in)dependence of the merge -/

theorem sortedDedup_data (x : List String) :
    (sortedDedup x).map String.data =
      List.insertionSort charsLe ((x.map String.data).dedup) := by
  unfold sortedDedup
  rw [List.map_map]
  have : (String.data ∘ fun cs => (⟨cs⟩ : String)) = id := by
    funext cs; rfl
  rw [this, List.map_id]

theorem dedup_toFinset_eq {α : Type} [DecidableEq α] (l : List α) :
    l.dedup.toFinset = l.toFinset :=
  List.toFinset.ext fun _ => List.mem_dedup

theorem sortedDedup_congr_set (x y : List String)
    (h : (x.map String.data).toFinset = (y.map String.data).toFinset) :
    sortedDedup x = sortedDedup y := by
  unfold sortedDedup
  congr 1
  refine List.eq_of_perm_of_sorted ?_ (List.sorted_insertionSort _ _)
    (List.sorted_insertionSort _ _)
  apply List.perm_of_nodup_nodup_toFinset_eq
  · exact (List.perm_insertionSort _ _).nodup_iff.mpr (List.nodup_dedup _)
  · exact (List.perm_insertionSort _ _).nodup_iff.mpr (List.nodup_dedup _)
  · rw [List.toFinset_eq_of_perm _ _ (List.perm_insertionSort charsLe _),
      List.toFinset_eq_of_perm _ _ (List.perm_insertionSort charsLe _),
      dedup_toFinset_eq, dedup_toFinset_eq, h]

/-- `sorted(set(a) | set(b))` is order-independent and collapses repeated
normalization: both orders equal `sorted(set(a + b))`. -/
theorem sortedDedup_norm_append (x y : List String) :
    sortedDedup (sortedDedup x ++ sortedDedup y) = sortedDedup (x ++ y) := by
  apply sortedDedup_congr_set
  rw [List.map_append, List.toFinset_append, sortedDedup_data, sortedDedup_data,
    List.toFinset_eq_of_perm _ _ (List.perm_insertionSort charsLe _),
    List.toFinset_eq_of_perm _ _ (List.perm_insertionSort charsLe _),
    dedup_toFinset_eq, dedup_toFinset_eq,
    List.map_append, List.toFinset_append]

theorem sortedDedup_append_comm' (x y : List String) :
    sortedDedup (x ++ y) = sortedDedup (y ++ x) :=
  sortedDedup_perm_eq _ _ List.perm_append_comm

/-- What `mergeInto` does to the two aggregation-friendly fields. -/
theorem mergeInto_ids_active (base r m : MRec) (h : mergeInto base r = .ok m) :
    m.security_warning_ids =
      sortedDedup (base.security_warning_ids ++ r.security_warning_ids) ∧
    m.active_security_warning =
      JVal.bool (base.active_security_warning.truthy ||
        r.active_security_warning.truthy) := by
  rw [mergeInto] at h
  cases hu : urlStep base r with
  | error e => rw [hu] at h; exact absurd h (by simp)
  | ok u =>
    rw [hu] at h
    simp only [] at h
    cases hv : vulnStep base r with
    | error e => rw [hv] at h; exact absurd h (by simp)
    | ok v =>
      rw [hv] at h
      simp only [Except.ok.injEq] at h
      rw [← h]
      exact ⟨rfl, rfl⟩

/-- Normalization neither reads nor writes `active_security_warning`, and
rewrites `security_warning_ids` to `sorted(set(...))`. -/
theorem normalizeRecJenkins_ids_active (r : MRec) :
    (normalizeRecJenkins r).security_warning_ids = r.security_warning_ids ∧
    (normalizeRecJenkins r).active_security_warning = r.active_security_warning := by
  unfold normalizeRecJenkins
  dsimp only []
  split <;> exact ⟨rfl, rfl⟩

theorem normalizeRec_ids_active (r : MRec) :
    (normalizeRec r).security_warning_ids = sortedDedup r.security_warning_ids ∧
    (normalizeRec r).active_security_warning = r.active_security_warning := by
  rw [normalizeRec]
  have h1 : ∀ r1 : MRec,
      (match r.source, r.rtype with
        | .str s, .str t =>
          if s = "jenkins" ∧ t = "advisory" then normalizeRecJenkins r else r
        | _, _ => r) = r1 →
      r1.security_warning_ids = r.security_warning_ids ∧
      r1.active_security_warning = r.active_security_warning := by
    intro r1 hr1
    rw [← hr1]
    cases r.source <;> cases r.rtype <;> dsimp only [] <;>
      try exact ⟨rfl, rfl⟩
    split
    · exact normalizeRecJenkins_ids_active r
    · exact ⟨rfl, rfl⟩
  have h2 := h1 _ rfl
  dsimp only []
  split <;> simp only [] <;> exact ⟨congrArg sortedDedup h2.1, h2.2⟩

/-- Evaluation of the merge on a two-record group: normalize both, merge
the second into the first, stamp `_merged_from_count = 2`. -/
theorem mergeAdvisoryRecords_pair (A B : MRec)
    (hk : keyFor (normalizeRec A) = keyFor (normalizeRec B)) :
    mergeAdvisoryRecords [A, B] =
      (mergeInto (normalizeRec A) (normalizeRec B)).map
        (fun m => [{ m with mergedFromCount := .num (.fin 2) }]) := by
  have hstep1 : mergeLoop [A, B] [] [] =
      mergeLoop [B] [(keyFor (normalizeRec A), normalizeRec A)]
        [(keyFor (normalizeRec A), 1)] := rfl
  have hfind : assocFind [(keyFor (normalizeRec B), normalizeRec A)]
      (keyFor (normalizeRec B)) = some (normalizeRec A) := by
    simp [assocFind]
  have hbump : bumpCount [(keyFor (normalizeRec B), (1 : ℕ))]
      (keyFor (normalizeRec B)) = [(keyFor (normalizeRec B), 2)] := by
    simp [bumpCount, assocFind, assocReplace]
  cases hm : mergeInto (normalizeRec A) (normalizeRec B) with
  | error e =>
    have hloop : mergeLoop [A, B] [] [] = .error e := by
      rw [hstep1, hk, mergeLoop]
      rw [hfind, hbump]
      simp only [hm]
    rw [mergeAdvisoryRecords, hloop]
    rfl
  | ok m =>
    have hrep : assocReplace [(keyFor (normalizeRec B), normalizeRec A)]
        (keyFor (normalizeRec B)) m = [(keyFor (normalizeRec B), m)] := by
      simp [assocReplace]
    have hloop : mergeLoop [A, B] [] [] =
        .ok ([(keyFor (normalizeRec B), m)], [(keyFor (normalizeRec B), 2)]) := by
      rw [hstep1, hk, mergeLoop]
      rw [hfind, hbump]
      simp only [hm, hrep]
      rw [mergeLoop]
    have hfc : assocFind [(keyFor (normalizeRec B), (2 : ℕ))]
        (keyFor (normalizeRec B)) = some 2 := by
      simp [assocFind]
    rw [mergeAdvisoryRecords, hloop]
    dsimp only [Except.map, List.map]
    rw [hfc]
    norm_num

/-- Claim C3 (amended): within a two-record group sharing the dedupe key,
the merged `security_warning_ids` (sorted union) and
`active_security_warning` (logical OR) are the same in either input order —
and equal the sorted union resp. OR of the inputs — but the full merged
record is **not** order-independent: fields with a first-non-empty-wins
rule (`title`, and `url` between two non-canonical hosts) keep the value of
whichever record came first (see the counterexample). -/
theorem claim_C3 (A B : MRec)
    (hk : keyFor (normalizeRec A) = keyFor (normalizeRec B))
    (l₁ l₂ : List MRec)
    (h₁ : mergeAdvisoryRecords [A, B] = .ok l₁)
    (h₂ : mergeAdvisoryRecords [B, A] = .ok l₂) :
    ∃ m₁ m₂, l₁ = [m₁] ∧ l₂ = [m₂] ∧
      m₁.security_warning_ids =
        sortedDedup (A.security_warning_ids ++ B.security_warning_ids) ∧
      m₂.security_warning_ids = m₁.security_warning_ids ∧
      m₁.active_security_warning =
        JVal.bool (A.active_security_warning.truthy ||
          B.active_security_warning.truthy) ∧
      m₂.active_security_warning = m₁.active_security_warning := by
  rw [mergeAdvisoryRecords_pair A B hk] at h₁
  rw [mergeAdvisoryRecords_pair B A hk.symm] at h₂
  cases hm1 : mergeInto (normalizeRec A) (normalizeRec B) with
  | error e => rw [hm1] at h₁; exact absurd h₁ (by simp [Except.map])
  | ok m1 =>
  cases hm2 : mergeInto (normalizeRec B) (normalizeRec A) with
  | error e => rw [hm2] at h₂; exact absurd h₂ (by simp [Except.map])
  | ok m2 =>
  rw [hm1] at h₁
  rw [hm2] at h₂
  simp only [Except.map, Except.ok.injEq] at h₁ h₂
  obtain ⟨hids1, hact1⟩ := mergeInto_ids_active _ _ _ hm1
  obtain ⟨hids2, hact2⟩ := mergeInto_ids_active _ _ _ hm2
  obtain ⟨hnA1, hnA2⟩ := normalizeRec_ids_active A
  obtain ⟨hnB1, hnB2⟩ := normalizeRec_ids_active B
  refine ⟨_, _, h₁.symm, h₂.symm, ?_, ?_, ?_, ?_⟩
  · show m1.security_warning_ids = _
    rw [hids1, hnA1, hnB1, sortedDedup_norm_append]
  · show m2.security_warning_ids = m1.security_warning_ids
    rw [hids1, hids2, hnA1, hnB1, sortedDedup_norm_append, sortedDedup_norm_append,
      sortedDedup_append_comm']
  · show m1.active_security_warning = _
    rw [hact1, hnA2, hnB2]
  · show m2.active_security_warning = m1.active_security_warning
    rw [hact1, hact2, hnA2, hnB2, Bool.or_comm]

/-- Two records sharing a dedupe key but with different non-empty titles. -/
def recTitleA : MRec :=
  { source := .str "s", rtype := .str "t", plugin_id := .str "p",
    advisory_id := .str "a", url := .null, published_date := .null,
    title := .str "T1", security_warning_ids := ["SECURITY-1"],
    active_security_warning := .bool false, vulnerabilities := .null,
    mergedFromCount := .null }

def recTitleB : MRec :=
  { recTitleA with
    title := .str "T2",
    security_warning_ids := ["SECURITY-2"],
    active_security_warning := .bool true }

/-- Claim C3 counterexample: the merged record is not identical under
permutation of the inputs.  With two records sharing the dedupe key but
carrying different non-empty titles, the merged title is the first seen:
`T1` for order `[A, B]`, `T2` for order `[B, A]`. -/
theorem claim_C3_counterexample :
    ((mergeAdvisoryRecords [recTitleA, recTitleB]).map
      fun l => l.map fun m => pyStr m.title) = .ok ["T1"] ∧
    ((mergeAdvisoryRecords [recTitleB, recTitleA]).map
      fun l => l.map fun m => pyStr m.title) = .ok ["T2"] ∧
    mergeAdvisoryRecords [recTitleA, recTitleB] ≠
      mergeAdvisoryRecords [recTitleB, recTitleA] := by
  refine ⟨rfl, rfl, ?_⟩
  intro h
  have h3 : (Except.ok ["T1"] : Except Unit (List String)) = Except.ok ["T2"] := by
    have h2 := congrArg
      (fun e : Except Unit (List MRec) =>
        e.map fun l => l.map fun m => pyStr m.title) h
    exact h2
  exact absurd (Except.ok.inj h3) (by decide)

/-- The claim's concrete pair: `security_warning_ids` `["SECURITY-1"]` with
`active_security_warning = false`, against `["SECURITY-2"]` with `true`. -/
def recWarnA : MRec :=
  { source := .str "s", rtype := .str "t", plugin_id := .str "p",
    advisory_id := .str "a", url := .null, published_date := .null,
    title := .null, security_warning_ids := ["SECURITY-1"],
    active_security_warning := .bool false, vulnerabilities := .null,
    mergedFromCount := .null }

def recWarnB : MRec :=
  { recWarnA with
    security_warning_ids := ["SECURITY-2"],
    active_security_warning := .bool true }

/-- Concrete discharge of `claim_C3` on the claim's record pair: in either
order the merged record has ids `["SECURITY-1", "SECURITY-2"]` and an
active warning. -/
theorem claim_C3_witness :
    keyFor (normalizeRec recWarnA) = keyFor (normalizeRec recWarnB) ∧
    ∃ l₁ l₂, mergeAdvisoryRecords [recWarnA, recWarnB] = .ok l₁ ∧
      mergeAdvisoryRecords [recWarnB, recWarnA] = .ok l₂ ∧
      ∃ m₁ m₂, l₁ = [m₁] ∧ l₂ = [m₂] ∧
        m₁.security_warning_ids = ["SECURITY-1", "SECURITY-2"] ∧
        m₂.security_warning_ids = m₁.security_warning_ids ∧
        m₁.active_security_warning = JVal.bool true ∧
        m₂.active_security_warning = m₁.active_security_warning := by
  refine ⟨rfl, ?_⟩
  obtain ⟨l₁, h₁⟩ : ∃ l₁, mergeAdvisoryRecords [recWarnA, recWarnB] = .ok l₁ := ⟨_, rfl⟩
  obtain ⟨l₂, h₂⟩ : ∃ l₂, mergeAdvisoryRecords [recWarnB, recWarnA] = .ok l₂ := ⟨_, rfl⟩
  obtain ⟨m₁, m₂, e₁, e₂, hi1, hi2, ha1, ha2⟩ :=
    claim_C3 recWarnA recWarnB rfl l₁ l₂ h₁ h₂
  refine ⟨l₁, l₂, h₁, h₂, m₁, m₂, e₁, e₂, ?_, hi2, ?_, ha2⟩
  · rw [hi1]; decide
  · rw [ha1]; exact congrArg JVal.bool (by decide)

/-! ## Local dataset model and loaders
(`canary/scoring/baseline.py`, lines 26-30, 158-222, 241-274, 338-381) -/

/-- One line of an advisories JSONL file, abstracted to its parse outcome:
whitespace-only (skipped), valid JSON with value `j`, or a line on which
`json.loads` raises. -/
inductive AdvLine where
  | blank
  | good (j : JVal)
  | bad

/-- The filesystem state the scorer can consult, one slot per path pattern:
`none` is an absent file, otherwise the parse outcome of the contents. -/
structure Dataset where
  advReal : String → Option (List AdvLine)
  advSample : String → Option (List AdvLine)
  advBare : String → Option (List AdvLine)
  snapshotFile : String → Option (Except Unit JVal)
  hsPerPlugin : String → Option (Except Unit JVal)
  hsAggTop : Option (Except Unit JVal)
  hsAggNested : Option (Except Unit JVal)

/-- `_load_plugin_snapshot` (lines 26-30): `None` when the file is absent,
otherwise `json.loads` of the contents (which may raise). -/
def loadPluginSnapshot (ds : Dataset) (pluginId : String) : Except Unit (Option JVal) :=
  match ds.snapshotFile pluginId with
  | none => .ok none
  | some (.error e) => .error e
  | some (.ok j) => .ok (some j)

/-- The line loop of `_load_advisories_for_plugin` (lines 373-379): strip,
skip blanks, `json.loads` each line with **no** exception handling. -/
def parseAdvLines : List AdvLine → Except Unit (List JVal)
  | [] => .ok []
  | .blank :: rest => parseAdvLines rest
  | .bad :: _ => .error ()
  | .good j :: rest =>
    match parseAdvLines rest with
    | .error e => .error e
    | .ok js => .ok (j :: js)

/-- `_load_advisories_for_plugin` (lines 338-381): first existing candidate
file wins; `prefer_real` swaps the real/sample priority; no file means an
empty record list. -/
def loadAdvisoriesForPlugin (ds : Dataset) (pluginId : String) (preferReal : Bool) :
    Except Unit (List JVal) :=
  let c1 := if preferReal then ds.advReal pluginId else ds.advSample pluginId
  let c2 := if preferReal then ds.advSample pluginId else ds.advReal pluginId
  match c1 with
  | some lines => parseAdvLines lines
  | none =>
    match c2 with
    | some lines => parseAdvLines lines
    | none =>
      match ds.advBare pluginId with
      | some lines => parseAdvLines lines
      | none => .ok []

/-- The normalized healthscore record returned by
`_load_healthscore_record` (its `value`/`date`/`details`/`collected_at`
dict). -/
structure HSRecord where
  value : JVal
  date : JVal
  details : JVal
  collected_at : JVal

/-- Python `x or y`. -/
def pyOr (a b : JVal) : JVal := if a.truthy then a else b

/-- The record-shaping common to both healthscore layouts
(lines 185-190 and 215-220). -/
def hsFromRec (rec : JVal) (collectedAt : JVal) : HSRecord :=
  { value := if rec.hasKey "value" then rec.getD "value" .null else rec.getD "score" .null,
    date := pyOr (rec.getD "date" .null)
      (pyOr (rec.getD "updated" .null) (rec.getD "timestamp" .null)),
    details := if rec.hasKey "details" then rec.getD "details" .null else rec,
    collected_at := collectedAt }

/-- One aggregated-layout candidate (lines 202-220): a parse failure or any
shape mismatch silently moves on. -/
def aggCandidate (content : Option (Except Unit JVal)) (pluginId : String) :
    Option HSRecord :=
  match content with
  | none => none
  | some (.error _) => none
  | some (.ok payload) =>
    match payload with
    | .obj _ =>
      match JVal.getD payload "record" .null with
      | .obj recFields =>
        match (JVal.lookup pluginId recFields).getD .null with
        | .obj rf => some (hsFromRec (.obj rf) (payload.getD "collected_at" .null))
        | _ => none
      | _ => none
    | _ => none

/-- `_load_healthscore_record` (lines 158-222): per-plugin file first (its
`except Exception` returns `None` outright), then the two aggregate
candidates. -/
def loadHealthscoreRecord (ds : Dataset) (pluginId : String) : Option HSRecord :=
  let agg :=
    match aggCandidate ds.hsAggTop pluginId with
    | some h => some h
    | none => aggCandidate ds.hsAggNested pluginId
  match ds.hsPerPlugin pluginId with
  | none => agg
  | some (.error _) => none
  | some (.ok payload) =>
    match payload with
    | .obj _ =>
      match JVal.getD payload "record" .null with
      | .obj rf => some (hsFromRec (.obj rf) (payload.getD "collected_at" .null))
      | _ => agg
    | _ => agg

/-- `_healthscore_to_risk_points` (lines 225-238).  Only the `float(value)`
conversion sits inside the `try`; a `nan` value then slips through both
clamping `if`s and `round(nan)` raises an uncaught `ValueError`, hence the
`.error` case (infinities are clamped to the range and are fine). -/
def healthscoreToRiskPoints (value : JVal) : Except Unit (Option ℤ) :=
  match pyFloat value with
  | none => .ok none
  | some v =>
    let v1 := if v.ltB (.fin 0) then PyNum.fin 0 else v
    let v2 := if v1.gtB (.fin 100) then PyNum.fin 100 else v1
    match v2 with
    | .fin q => .ok (some (max 0 (min 20 (roundHalfEven ((100 - q) / 5)))))
    | _ => .error ()

/-- A Python `datetime.datetime` (microseconds kept as an integer count;
offset in minutes, `none` for a naive value). -/
structure PyDateTime where
  date : PyDate
  hour : ℤ
  minute : ℤ
  second : ℤ
  micro : ℤ
  tzmin : Option ℤ
deriving DecidableEq

def parseTzPart (l : List Char) : Option (Option ℤ) :=
  match l with
  | [] => some none
  | sign :: r =>
    if sign = '+' ∨ sign = '-' then
      match parseNDigits 2 r with
      | none => none
      | some (h, r1) =>
        match r1 with
        | ':' :: r2 =>
          match parseNDigits 2 r2 with
          | none => none
          | some (m, r3) =>
            if r3.isEmpty ∧ h ≤ 23 ∧ m ≤ 59 then
              some (some ((if sign = '-' then -1 else 1) * ((h : ℤ) * 60 + m)))
            else none
        | _ => none
    else none

def parseFracPart (l : List Char) : Option (ℤ × List Char) :=
  match l with
  | '.' :: r =>
    let digits := r.takeWhile Char.isDigit
    let rest := r.dropWhile Char.isDigit
    if 1 ≤ digits.length ∧ digits.length ≤ 6 then
      some ((digitsVal digits * 10 ^ (6 - digits.length) : ℕ), rest)
    else none
  | r => some (0, r)

/-- The common subset of `datetime.fromisoformat`:
`YYYY-MM-DD[(T| )HH:MM[:SS[.f{1,6}]]][±HH:MM]` (Python 3.11 accepts more
compact variants, which no claim depends on). -/
def parseIsoDatetimeChars (l : List Char) : Option PyDateTime :=
  match parseIsoDateChars (l.take 10) with
  | none => none
  | some d =>
    match l.drop 10 with
    | [] => some ⟨d, 0, 0, 0, 0, none⟩
    | sep :: r1 =>
      if ¬ (sep = 'T' ∨ sep = ' ') then none
      else
        match parseNDigits 2 r1 with
        | none => none
        | some (hh, r2) =>
          match r2 with
          | ':' :: r3 =>
            match parseNDigits 2 r3 with
            | none => none
            | some (mm, r4) =>
              let secPart :=
                match r4 with
                | ':' :: r5 =>
                  match parseNDigits 2 r5 with
                  | none => none
                  | some (ss, r6) =>
                    match parseFracPart r6 with
                    | none => none
                    | some (us, r7) => some (ss, us, r7)
                | _ => some (0, (0 : ℤ), r4)
              match secPart with
              | none => none
              | some (ss, us, rest) =>
                match parseTzPart rest with
                | none => none
                | some tz =>
                  if hh ≤ 23 ∧ mm ≤ 59 ∧ (ss : ℤ) ≤ 59 then
                    some ⟨d, hh, mm, ss, us, tz⟩
                  else none
          | _ => none

/-- `_parse_iso_datetime` (lines 241-251): empty is `None`, a trailing `Z`
becomes `+00:00`, parse failures are `None`. -/
def parseIsoDatetime (value : String) : Option PyDateTime :=
  if value.data.isEmpty then none
  else
    let v := pyStripChars value.data
    let v1 := if v.getLast? = some 'Z' then v.dropLast ++ "+00:00".data else v
    parseIsoDatetimeChars v1

/-- Seconds on the UTC timeline (rational, to carry microseconds). -/
def dtInstantSec (t : PyDateTime) : ℚ :=
  ((dateOrdinal t.date * 86400 + t.hour * 3600 + t.minute * 60 + t.second
    - (t.tzmin.getD 0) * 60 : ℤ) : ℚ) + (t.micro : ℚ) / 1000000

/-- Python `(a - b).days`: floor of the difference; mixing naive and aware
datetimes raises `TypeError`. -/
def dtDiffDays (a b : PyDateTime) : Except Unit ℤ :=
  match a.tzmin, b.tzmin with
  | some _, some _ => .ok ⌊(dtInstantSec a - dtInstantSec b) / 86400⌋
  | none, none => .ok ⌊(dtInstantSec a - dtInstantSec b) / 86400⌋
  | _, _ => .error ()

def pad6 (n : ℕ) : String :=
  let raw := toString n
  ⟨List.replicate (6 - raw.data.length) '0' ++ raw.data⟩

/-- `datetime.isoformat()`. -/
def dtIso (t : PyDateTime) : String :=
  dateIso t.date ++ "T" ++ pad2 t.hour.natAbs ++ ":" ++ pad2 t.minute.natAbs ++
    ":" ++ pad2 t.second.natAbs ++
    (if t.micro ≠ 0 then "." ++ pad6 t.micro.natAbs else "") ++
    (match t.tzmin with
     | none => ""
     | some off =>
       (if off < 0 then "-" else "+") ++ pad2 ((|off| / 60).natAbs) ++ ":" ++
         pad2 ((|off| % 60).natAbs))

/-! ## Advisory and dependency signals
(`canary/scoring/baseline.py`, lines 33-155, 261-335) -/

/-- `_parse_date` applied to `str(rec.get("published_date", "")).strip()`
(the pattern at lines 71 and 433). -/
def advisoryDateOf (rec : JVal) : Except Unit (Option PyDate) :=
  match rec.getE "published_date" (.str "") with
  | .error e => .error e
  | .ok pd => .ok (parseDate ⟨pyStripChars (pyStr pd).data⟩)

def collectAdvisoryDates : List JVal → Except Unit (List PyDate)
  | [] => .ok []
  | rec :: rest =>
    match advisoryDateOf rec with
    | .error e => .error e
    | .ok d? =>
      match collectAdvisoryDates rest with
      | .error e => .error e
      | .ok ds => .ok (match d? with | some d => d :: ds | none => ds)

/-- Python `max` over a list of dates (first maximum wins), `None` on
empty. -/
def maxDateList : List PyDate → Option PyDate
  | [] => none
  | d :: rest => some (dateListMax d rest)

/-- `_advisory_record_max_cvss` (lines 305-335): scan the vulnerability
list for the largest parseable `cvss.base_score`, falling back to
`severity_summary.max_cvss_base_score`.  Raises (`AttributeError`) when the
record itself is not a dict. -/
def advisoryRecordMaxCvss (rec : JVal) : Except Unit (Option PyNum) :=
  match rec.getE "vulnerabilities" .null with
  | .error e => .error e
  | .ok vulns0 =>
    let vulns := if vulns0.truthy then vulns0 else .arr []
    let fromVulns : Option PyNum :=
      match vulns with
      | .arr l =>
        l.foldl
          (fun acc v =>
            match v with
            | .obj _ =>
              let cvss0 := JVal.getD v "cvss" .null
              let cvss := if cvss0.truthy then cvss0 else .obj []
              match cvss with
              | .obj _ =>
                let bs := JVal.getD cvss "base_score" .null
                match bs with
                | .num _ | .bool _ | .str _ =>
                  match pyFloat bs with
                  | some s =>
                    match acc with
                    | none => some s
                    | some m => if s.gtB m then some s else acc
                  | none => acc
                | _ => acc
              | _ => acc
            | _ => acc)
          none
      | _ => none
    match fromVulns with
    | some m => .ok (some m)
    | none =>
      let summ0 := JVal.getD rec "severity_summary" .null
      let summ := if summ0.truthy then summ0 else .obj []
      match summ with
      | .obj _ =>
        let bs := JVal.getD summ "max_cvss_base_score" .null
        match bs with
        | .num _ | .bool _ | .str _ => .ok (pyFloat bs)
        | _ => .ok none
      | _ => .ok none

/-- `if ms is not None and (max_cvss is None or ms > max_cvss)` -/
def mergeMaxCvss (acc ms : Option PyNum) : Option PyNum :=
  match ms with
  | none => acc
  | some s =>
    match acc with
    | none => some s
    | some m => if s.gtB m then some s else acc

/-- Left-to-right maximum scan of the per-record CVSS maxima
(lines 78-82 / 450-454). -/
def collectMaxCvssAux (acc : Option PyNum) : List JVal → Except Unit (Option PyNum)
  | [] => .ok acc
  | rec :: rest =>
    match advisoryRecordMaxCvss rec with
    | .error e => .error e
    | .ok ms => collectMaxCvssAux (mergeMaxCvss acc ms) rest

def collectMaxCvss (advisories : List JVal) : Except Unit (Option PyNum) :=
  collectMaxCvssAux none advisories

/-- The compact per-dependency details blob of `_dependency_points`
(lines 143-154). -/
structure DepDetails where
  plugin_id : String
  advisory_count : ℕ
  latest_advisory_date : Option String
  recent_advisory_365d : Bool
  max_cvss : Option PyNum
  security_warning_count : ℕ
  active_security_warning_count : ℕ
  healthscore : JVal
  risk_points : ℤ
  reasons : List String

/-- `w.get("active") is True` for a securityWarnings entry known to be a
dict. -/
def warnActiveDict (w : JVal) : Bool :=
  match JVal.getD w "active" .null with
  | .bool true => true
  | _ => false

/-- The warning counts of `_dependency_points` (lines 84-95). -/
def depWarnCounts (depSnapshot : Option JVal) : Except Unit (ℕ × ℕ) :=
  match depSnapshot with
  | none => .ok (0, 0)
  | some snap =>
    if snap.truthy ∧ snap.isObj then
      let api := pyOr (JVal.getD snap "plugin_api" .null) (.obj [])
      match api.getE "securityWarnings" .null with
      | .error e => .error e
      | .ok sw0 =>
        let secWarnings := pyOr sw0 (.arr [])
        match secWarnings with
        | .arr l =>
          .ok (l.length,
            (l.filter fun w =>
              match w with
              | .obj _ => warnActiveDict w
              | _ => false).length)
        | _ => .ok (0, 0)
    else .ok (0, 0)

/-- `_dependency_points` (lines 57-155): per-dependency risk points plus
the details blob. -/
def dependencyPoints (ds : Dataset) (depId : String) (today : PyDate)
    (preferReal : Bool) : Except Unit (ℤ × DepDetails) :=
  match loadAdvisoriesForPlugin ds depId preferReal with
  | .error e => .error e
  | .ok advisories =>
  match collectAdvisoryDates advisories with
  | .error e => .error e
  | .ok advisoryDates =>
  match collectMaxCvss advisories with
  | .error e => .error e
  | .ok maxCvss =>
  match loadPluginSnapshot ds depId with
  | .error e => .error e
  | .ok depSnapshot =>
  match depWarnCounts depSnapshot with
  | .error e => .error e
  | .ok wc =>
  let advisoryCount := advisories.length
  let latestAdv := maxDateList advisoryDates
  let recent365 : Bool :=
    match latestAdv with
    | some d => decide (dateDiffDays today d ≤ 365)
    | none => false
  let totalWarn := wc.1
  let activeWarn := wc.2
  let hs := loadHealthscoreRecord ds depId
  let hsValue : JVal := match hs with | some h => h.value | none => .null
  let st1 : ℤ × List String :=
    if advisoryCount ≠ 0 then
      let advPts : ℤ := min 10 ((advisoryCount : ℤ) * 2)
      (advPts, [toString advisoryCount ++ " advisories (+" ++ toString advPts ++ ")."])
    else (0, [])
  let st2 : ℤ × List String :=
    match maxCvss with
    | some mc =>
      let sevPts : ℤ :=
        if mc.geB (.fin 9) then 6
        else if mc.geB (.fin 7) then 4
        else if mc.geB (.fin 4) then 2
        else 0
      (st1.1 + sevPts,
        if sevPts ≠ 0 then
          st1.2 ++ ["Max CVSS " ++ fmtFixedNum 1 mc ++ " (+" ++ toString sevPts ++ ")."]
        else st1.2)
    | none => st1
  let st3 : ℤ × List String :=
    if recent365 then (st2.1 + 3, st2.2 ++ ["Recent advisory within 365d (+3)."]) else st2
  let st4 : ℤ × List String :=
    if activeWarn ≠ 0 then
      let warnPts : ℤ := min 10 ((activeWarn : ℤ) * 5)
      (st3.1 + warnPts,
        st3.2 ++ ["Active security warnings: " ++ toString activeWarn ++
          " (+" ++ toString warnPts ++ ")."])
    else st3
  let st5 : ℤ × List String :=
    match hsValue with
    | .null => st4
    | v =>
      match pyFloat v with
      | none => st4
      | some hv0 =>
        let hv := pyMaxNum (.fin 0) (pyMinNum (.fin 100) hv0)
        match hv with
        | .fin q =>
          let hsPts : ℤ := max 0 (min 4 (roundHalfEven ((100 - q) / 25)))
          if hsPts ≠ 0 then
            (st4.1 + hsPts,
              st4.2 ++ ["Health score " ++ fmtFixed 0 q ++ " (+" ++ toString hsPts ++ ")."])
          else st4
        | _ => st4
  .ok (st5.1,
    { plugin_id := depId,
      advisory_count := advisoryCount,
      latest_advisory_date := latestAdv.map dateIso,
      recent_advisory_365d := recent365,
      max_cvss := maxCvss,
      security_warning_count := totalWarn,
      active_security_warning_count := activeWarn,
      healthscore := hsValue,
      risk_points := st5.1,
      reasons := st5.2 })

/-- `_extract_dependency_plugin_ids` (lines 33-54). -/
def extractDependencyPluginIds (snapshot : JVal) : Except Unit (List String) :=
  let api := pyOr (JVal.getD snapshot "plugin_api" .null) (.obj [])
  match api.getE "dependencies" .null with
  | .error e => .error e
  | .ok deps0 =>
    let deps := pyOr deps0 (.arr [])
    let out : List String :=
      match deps with
      | .arr l =>
        l.foldl
          (fun acc d =>
            match d with
            | .obj _ =>
              match JVal.getD d "name" .null with
              | .str pid =>
                let pid1 := pyStripChars pid.data
                if pid1.isEmpty then acc else acc ++ [(⟨pid1⟩ : String)]
              | _ => acc
            | _ => acc)
          []
      | _ => []
    .ok (sortedDedup out)

/-! ## `score_plugin_baseline`
(`canary/scoring/baseline.py`, lines 384-741) -/

def coreKeywords : List String := ["credentials", "security", "auth", "oauth", "saml", "ldap"]

def scmKeywords : List String := ["git", "svn", "scm", "github", "bitbucket"]

/-- `plugin.lower().strip()` (line 400); `asciiLower` stands in for
`str.lower` (see its docstring). -/
def pyNormalize (s : String) : String := ⟨pyStripChars (asciiLowerChars s.data)⟩

structure KwOut where
  points : ℤ
  reasons : List String
  matched_core : List String
  matched_scm : List String

/-- The name-keyword heuristics (lines 401-420). -/
def keywordStage (name : String) : KwOut :=
  let matchedCore := coreKeywords.filter fun k => pyInStr k name
  let matchedScm := scmKeywords.filter fun k => pyInStr k name
  { points := (if ¬ matchedCore.isEmpty then 20 else 0) +
      (if ¬ matchedScm.isEmpty then 10 else 0),
    reasons :=
      (if ¬ matchedCore.isEmpty then
        ["Name suggests auth/security surface area (baseline heuristic)."] else []) ++
      (if ¬ matchedScm.isEmpty then
        ["Name suggests SCM/integration surface area (baseline heuristic)."] else []),
    matched_core := matchedCore,
    matched_scm := matchedScm }

/-- Severity-bonus loop over the advisory records (lines 469-472). -/
def severityPointsRaw : List JVal → Except Unit ℤ
  | [] => .ok 0
  | rec :: rest =>
    match advisoryRecordMaxCvss rec with
    | .error e => .error e
    | .ok ms =>
      match severityPointsRaw rest with
      | .error e => .error e
      | .ok acc => .ok (severityBonus (cvssBaseScoreToLabel ms) + acc)

structure AdvOut where
  points : ℤ
  reasons : List String
  advisory_count : ℕ
  latest_advisory_date : Option String
  days_since_latest_advisory : Option ℤ
  advisory_within_90d : ℕ
  advisory_within_365d : ℕ
  had_advisory_within_365d : Bool
  max_cvss : Option PyNum
  max_label : Option String

/-- The own-advisory signal (lines 422-508). -/
def advisorySection (ds : Dataset) (name : String) (today : PyDate) (real : Bool) :
    Except Unit AdvOut :=
  match loadAdvisoriesForPlugin ds name real with
  | .error e => .error e
  | .ok advisories =>
  match collectAdvisoryDates advisories with
  | .error e => .error e
  | .ok advisoryDates =>
  match collectMaxCvss advisories with
  | .error e => .error e
  | .ok maxCvss =>
  let count := advisories.length
  let latest := maxDateList advisoryDates
  let latestStr := latest.map dateIso
  let daysSince := latest.map (dateDiffDays today ·)
  let w90 := (advisoryDates.filter fun d => decide (dateDiffDays today d ≤ 90)).length
  let w365 := (advisoryDates.filter fun d => decide (dateDiffDays today d ≤ 365)).length
  let maxLabel := cvssBaseScoreToLabel maxCvss
  if 0 < count then
    match severityPointsRaw advisories with
    | .error e => .error e
    | .ok sevRaw =>
      let basePoints : ℤ := min 20 ((count : ℤ) * 2)
      let recencyPoints : ℤ :=
        min 40 ((w90 : ℤ) * 20 + max 0 ((w365 : ℤ) - (w90 : ℤ)) * 10)
      let severityPoints : ℤ := min 30 sevRaw
      let r1 := [toString count ++ " advisory record(s) found for this plugin.",
        "Advisory history: +" ++ toString basePoints ++ " point(s) (2/advisory, capped at 20)."]
      let r2 :=
        if 0 < w365 then
          (if 0 < w90 then
            ["Recent advisories: +" ++ toString recencyPoints ++ " point(s) (" ++
              toString w90 ++ " within 90d @20, " ++ toString (w365 - w90) ++
              " within 365d @10; capped at 40)."]
          else
            ["Recent advisories: +" ++ toString recencyPoints ++ " point(s) (" ++
              toString w365 ++ " within 365d @10; capped at 40)."]) ++
          ["Recent advisory activity (<= 365 days)."]
        else
          ["No advisory activity in the last 365 days (recency bonus = 0)."]
      let r3 :=
        if 0 < severityPoints then
          if (match maxLabel with | some l => ! l.data.isEmpty | none => false) then
            ["Advisory severity (CVSS): +" ++ toString severityPoints ++
              " point(s) (max observed: " ++ (maxLabel.getD "") ++ ", CVSS " ++
              fmtFixedNum 1 (maxCvss.getD .nan) ++ "; capped at 30)."]
          else
            ["Advisory severity (CVSS): +" ++ toString severityPoints ++
              " point(s) (capped at 30)."]
        else []
      .ok {
        points := basePoints + recencyPoints + severityPoints,
        reasons := r1 ++ r2 ++ r3,
        advisory_count := count,
        latest_advisory_date := latestStr,
        days_since_latest_advisory := daysSince,
        advisory_within_90d := w90,
        advisory_within_365d := w365,
        had_advisory_within_365d := 0 < w365,
        max_cvss := maxCvss,
        max_label := maxLabel }
  else
    .ok {
      points := 0,
      reasons := ["No advisories found in local dataset (yet)."],
      advisory_count := count,
      latest_advisory_date := latestStr,
      days_since_latest_advisory := daysSince,
      advisory_within_90d := w90,
      advisory_within_365d := w365,
      had_advisory_within_365d := 0 < w365,
      max_cvss := maxCvss,
      max_label := maxLabel }

/-- Element step of `sum(1 for w in sec_warnings if (w or \x7b\x7d).get("active") is True)`
(line 558): a truthy non-dict element raises `AttributeError`. -/
def countActiveE : List JVal → Except Unit ℤ
  | [] => .ok 0
  | w :: rest =>
    let w1 := if w.truthy then w else .obj []
    match w1 with
    | .obj _ =>
      match countActiveE rest with
      | .error e => .error e
      | .ok n => .ok ((if warnActiveDict w1 then 1 else 0) + n)
    | _ => .error ()

def sumActiveWarnings (sw : JVal) : Except Unit ℤ :=
  match sw.iterE with
  | .error e => .error e
  | .ok elems => countActiveE elems

/-- `features["dependency_risk_summary"]` (lines 528-535 / 674-681). -/
structure DepSummary where
  deps_with_any_advisory : ℕ
  deps_with_recent_advisory_365d : ℕ
  deps_with_active_warning : ℕ
  worst_dep_max_cvss : Option PyNum
  worst_dep_id : Option String
  worst_dep_latest_advisory_date : Option String

/-- `features["dependency_missing_data"]` (lines 539-543 / 682-686). -/
structure MissingData where
  snapshot_missing : ℕ
  advisories_missing : ℕ
  healthscore_missing : ℕ

/-- Accumulator of the per-dependency loop (lines 610-662). -/
structure DepAgg where
  pairs : List (ℤ × DepDetails)
  missing_snap : ℕ
  missing_adv : ℕ
  missing_hs : ℕ
  deps_any : ℕ
  deps_recent : ℕ
  deps_active : ℕ
  worst_id : Option String
  worst_cvss : Option PyNum
  worst_latest : Option String

def depAgg0 : DepAgg :=
  { pairs := [], missing_snap := 0, missing_adv := 0, missing_hs := 0,
    deps_any := 0, deps_recent := 0, deps_active := 0,
    worst_id := none, worst_cvss := none, worst_latest := none }

/-- The `for dep_id in dep_ids` loop (lines 623-662): per-dependency
points/details, best-effort missing-data counts (a missing advisories file
means all three candidate paths are absent), counters and worst-dependency
tracking (`float(mcv) > worst_dep_cvss` is `gtB`, false on `nan`). -/
def depLoop (ds : Dataset) (today : PyDate) (real : Bool) :
    DepAgg → List String → Except Unit DepAgg
  | acc, [] => .ok acc
  | acc, depId :: rest =>
    match dependencyPoints ds depId today real with
    | .error e => .error e
    | .ok pd =>
    match loadPluginSnapshot ds depId with
    | .error e => .error e
    | .ok snap? =>
    match loadAdvisoriesForPlugin ds depId real with
    | .error e => .error e
    | .ok advs =>
    let det := pd.2
    let advMissing : Bool :=
      advs.isEmpty && (ds.advReal depId).isNone && (ds.advSample depId).isNone &&
        (ds.advBare depId).isNone
    let upd : Bool :=
      match det.max_cvss, acc.worst_cvss with
      | some _, none => true
      | some m, some w => m.gtB w
      | none, _ => false
    depLoop ds today real
      { pairs := acc.pairs ++ [pd],
        missing_snap := acc.missing_snap + (if snap?.isNone then 1 else 0),
        missing_adv := acc.missing_adv + (if advMissing then 1 else 0),
        missing_hs := acc.missing_hs + (if (loadHealthscoreRecord ds depId).isNone then 1 else 0),
        deps_any := acc.deps_any + (if det.advisory_count ≠ 0 then 1 else 0),
        deps_recent := acc.deps_recent + (if det.recent_advisory_365d then 1 else 0),
        deps_active := acc.deps_active + (if det.active_security_warning_count ≠ 0 then 1 else 0),
        worst_id := if upd then some depId else acc.worst_id,
        worst_cvss := if upd then det.max_cvss else acc.worst_cvss,
        worst_latest := if upd then det.latest_advisory_date else acc.worst_latest }
      rest

/-- The sort key `x[1].get("max_cvss") or 0` (line 665); `nan` is truthy in
Python, so it survives the `or`. -/
def pyOrNum : Option PyNum → PyNum
  | some x => if x.truthy then x else .fin 0
  | none => .fin 0

/-- Python tuple `<` on the sort keys `(x[0], x[1].get("max_cvss") or 0)`. -/
def depSortKeyLt (a b : ℤ × DepDetails) : Bool :=
  decide (a.1 < b.1) ||
    (decide (a.1 = b.1) && PyNum.ltB (pyOrNum a.2.max_cvss) (pyOrNum b.2.max_cvss))

/-- Insert into a descending list, after every element not `lt`-below the
new one (keeps equal keys in arrival order). -/
def insertDescBy {α : Type} (lt : α → α → Bool) (x : α) : List α → List α
  | [] => [x]
  | y :: ys => if lt y x then x :: y :: ys else y :: insertDescBy lt x ys

/-- `list.sort(key=..., reverse=True)` (line 665): the unique stable
descending order.  CPython's stable sort agrees with this left-to-right
stable insertion whenever the key comparison is a strict weak order; a `nan`
`max_cvss` on records with tied points is the only key that escapes that
(CPython then leaves some implementation-defined order). -/
def sortDescStable {α : Type} (lt : α → α → Bool) (l : List α) : List α :=
  l.foldl (fun acc x => insertDescBy lt x acc) []

/-- The snapshot-derived feature fields (lines 512-545 defaults, filled at
lines 547-712). -/
structure SnapFeatures where
  has_plugin_snapshot : Bool
  required_core : JVal
  dependency_count : ℤ
  security_warning_count : ℤ
  active_security_warning_count : ℤ
  release_timestamp : Option String
  days_since_release : Option ℤ
  dependency_plugins : List String
  dependency_total : ℕ
  dependency_risk_points : ℤ
  dependency_risk_summary : DepSummary
  dependency_missing_data : MissingData
  dependency_details_top : List DepDetails

def defaultSnapFeatures (hasSnap : Bool) : SnapFeatures :=
  { has_plugin_snapshot := hasSnap,
    required_core := .null,
    dependency_count := 0,
    security_warning_count := 0,
    active_security_warning_count := 0,
    release_timestamp := none,
    days_since_release := none,
    dependency_plugins := [],
    dependency_total := 0,
    dependency_risk_points := 0,
    dependency_risk_summary :=
      { deps_with_any_advisory := 0, deps_with_recent_advisory_365d := 0,
        deps_with_active_warning := 0, worst_dep_max_cvss := none,
        worst_dep_id := none, worst_dep_latest_advisory_date := none },
    dependency_missing_data :=
      { snapshot_missing := 0, advisories_missing := 0, healthscore_missing := 0 },
    dependency_details_top := [] }

/-- `api = snapshot.get("plugin_api") or \x7b\x7d` (line 548). -/
def snapApi (snap : JVal) : JVal := pyOr (snap.getD "plugin_api" .null) (.obj [])

/-- `_parse_iso_datetime(str(api.get("releaseTimestamp", "")).strip())`
(line 562). -/
def releaseTsOf (api : JVal) : Option PyDateTime :=
  parseIsoDatetime ⟨pyStripChars (pyStr (api.getD "releaseTimestamp" (.str ""))).data⟩

/-- `features["days_since_release"]` (lines 564-565): `None` without a
release timestamp; subtracting a naive release timestamp from the aware
`datetime.now(UTC)` raises `TypeError`. -/
def releaseDays (now : PyDateTime) : Option PyDateTime → Except Unit (Option ℤ)
  | none => .ok none
  | some rt =>
    match dtDiffDays now rt with
    | .error e => .error e
    | .ok d => .ok (some d)

/-- Lines 606-712: the dependency-risk tail of the snapshot branch, taking
the score and reasons accumulated so far and the feature record filled up
to (but excluding) the dependency keys. -/
def snapshotDeps (ds : Dataset) (today : PyDate) (real : Bool) (depIds : List String)
    (score3 : ℤ) (rs : List String) (base : SnapFeatures) :
    Except Unit (ℤ × List String × SnapFeatures) :=
  match depLoop ds today real depAgg0 depIds with
  | .error e => .error e
  | .ok agg =>
    let sorted := sortDescStable depSortKeyLt agg.pairs
    let top := sorted.take 5
    let depDetailsTop := (top.filter fun pd => decide (0 < pd.2.risk_points)).map (·.2)
    let depPointsSum := (top.map (·.1)).sum
    let depPoints : ℤ := max 0 (min 20 depPointsSum)
    let r4 :=
      if ¬ depIds.isEmpty then
        ["Dependency plugins: " ++ toString depIds.length ++ " declared."] ++
        (if agg.deps_any ≠ 0 ∨ agg.deps_active ≠ 0 then
          (if (match agg.worst_id with | some s => !s.data.isEmpty | none => false) &&
              agg.worst_cvss.isSome then
            ["Dependency risk: " ++ toString agg.deps_any ++
              " deps have advisories; worst is " ++ agg.worst_id.getD "" ++
              " (CVSS " ++ fmtFixedNum 1 (agg.worst_cvss.getD .nan) ++
              (match agg.worst_latest with
               | some l => if !l.data.isEmpty then ", latest " ++ l else ""
               | none => "") ++ ")."]
          else
            ["Dependency risk: " ++ toString agg.deps_any ++
              " deps have advisories; " ++ toString agg.deps_active ++
              " deps have active warnings."])
        else []) ++
        (if 0 < depPoints then
          ["Dependency risk contribution: +" ++ toString depPoints ++
            " point(s) (cap 20; top 5 deps)."]
        else [])
      else []
    .ok (score3 + depPoints, rs ++ r4,
      { base with
        dependency_plugins := depIds,
        dependency_total := depIds.length,
        dependency_risk_points := depPoints,
        dependency_risk_summary :=
          { deps_with_any_advisory := agg.deps_any,
            deps_with_recent_advisory_365d := agg.deps_recent,
            deps_with_active_warning := agg.deps_active,
            worst_dep_max_cvss := agg.worst_cvss,
            worst_dep_id := agg.worst_id,
            worst_dep_latest_advisory_date := agg.worst_latest },
        dependency_missing_data :=
          { snapshot_missing := agg.missing_snap,
            advisories_missing := agg.missing_adv,
            healthscore_missing := agg.missing_hs },
        dependency_details_top := depDetailsTop })

/-- The plugin-snapshot signal (lines 510-712), threading the running
score.  `_extract_dependency_plugin_ids` (line 606) is matched before the
pure score/reason bookkeeping of lines 586-603 - those cannot raise, so the
exception behaviour is unchanged. -/
def snapshotSection (ds : Dataset) (name : String) (today : PyDate) (now : PyDateTime)
    (real : Bool) (score0 : ℤ) : Except Unit (ℤ × List String × SnapFeatures) :=
  match loadPluginSnapshot ds name with
  | .error e => .error e
  | .ok snap? =>
  match snap? with
  | none => .ok (score0, [], defaultSnapFeatures false)
  | some snap =>
    if ¬ (snap.truthy ∧ snap.isObj) then .ok (score0, [], defaultSnapFeatures true)
    else
      match (snapApi snap).getE "requiredCore" .null with
      | .error e => .error e
      | .ok requiredCore =>
      match (snapApi snap).getE "dependencies" .null with
      | .error e => .error e
      | .ok deps0 =>
      match (snapApi snap).getE "securityWarnings" .null with
      | .error e => .error e
      | .ok sw0 =>
      match (pyOr deps0 (.arr [])).lenE with
      | .error e => .error e
      | .ok depCount =>
      match (pyOr sw0 (.arr [])).lenE with
      | .error e => .error e
      | .ok warnCount =>
      match sumActiveWarnings (pyOr sw0 (.arr [])) with
      | .error e => .error e
      | .ok activeWarn =>
      match releaseDays now (releaseTsOf (snapApi snap)) with
      | .error e => .error e
      | .ok daysSinceRelease =>
      match extractDependencyPluginIds snap with
      | .error e => .error e
      | .ok depIds =>
      let releaseTs := releaseTsOf (snapApi snap)
      let r1 :=
        (if requiredCore.truthy then
          ["Requires Jenkins core " ++ pyStr requiredCore ++ " (from plugins API)."]
        else []) ++
        (if 0 < depCount then
          ["Declares " ++ toString depCount ++ " plugin dependency(ies) (surface area)."]
        else []) ++
        (if 0 < warnCount then
          (if activeWarn = 0 then
            [toString warnCount ++ " security warning(s) listed (none active)."]
          else
            [toString warnCount ++ " security warning(s) listed (active: " ++
              toString activeWarn ++ ")."])
        else []) ++
        (match releaseTs with
         | some rt => ["Latest release is " ++ dateIso rt.date ++ "."]
         | none => [])
      let score1 := score0 + min 60 (activeWarn * 20)
      let r2 :=
        if 0 < activeWarn then
          ["Active security warning(s) significantly increase risk."]
        else []
      let score2 :=
        if 10 ≤ depCount then score1 + 5 else if 5 ≤ depCount then score1 + 3 else score1
      let maint : ℤ × List String :=
        match daysSinceRelease with
        | some d =>
          if d ≤ 180 then
            (max 0 (score2 - 3), ["Recent release activity suggests active maintenance."])
          else (score2, [])
        | none => (score2, [])
      snapshotDeps ds today real depIds maint.1 (r1 ++ r2 ++ maint.2)
        { has_plugin_snapshot := true,
          required_core := requiredCore,
          dependency_count := depCount,
          security_warning_count := warnCount,
          active_security_warning_count := activeWarn,
          release_timestamp := releaseTs.map dtIso,
          days_since_release := daysSinceRelease,
          dependency_plugins := [],
          dependency_total := 0,
          dependency_risk_points := 0,
          dependency_risk_summary :=
            { deps_with_any_advisory := 0, deps_with_recent_advisory_365d := 0,
              deps_with_active_warning := 0, worst_dep_max_cvss := none,
              worst_dep_id := none, worst_dep_latest_advisory_date := none },
          dependency_missing_data :=
            { snapshot_missing := 0, advisories_missing := 0, healthscore_missing := 0 },
          dependency_details_top := [] }


/-- The health-score signal (lines 714-735); `healthscoreToRiskPoints`
raises on a `nan` value. -/
def healthSection (ds : Dataset) (name : String) (score0 : ℤ) :
    Except Unit (ℤ × List String × (JVal × JVal × JVal)) :=
  match loadHealthscoreRecord ds name with
  | none =>
    .ok (score0, ["No health score record found in local dataset (yet)."],
      (.null, .null, .null))
  | some h =>
    match healthscoreToRiskPoints h.value with
    | .error e => .error e
    | .ok pts? =>
      match pts? with
      | some pts =>
        .ok (score0 + pts,
          ["Health score: " ++ pyStr h.value ++ " (higher is healthier; +" ++
            toString pts ++ " risk point(s), max 20)."],
          (h.value, h.date, h.collected_at))
      | none =>
        .ok (score0, ["Health score record present but value was not parseable."],
          (h.value, h.date, h.collected_at))

/-- The `features` dict of the scorer; the snapshot-derived keys are grouped
in the nested `snapshot` field (a flattening-preserving regrouping of the
same key set). -/
structure Features where
  matched_core_keywords : List String
  matched_scm_keywords : List String
  advisory_count : ℕ
  latest_advisory_date : Option String
  days_since_latest_advisory : Option ℤ
  advisory_within_90d : ℕ
  advisory_within_365d : ℕ
  had_advisory_within_365d : Bool
  max_cvss_base_score_observed : Option PyNum
  max_cvss_severity_label_observed : Option String
  snapshot : SnapFeatures
  healthscore_value : JVal
  healthscore_date : JVal
  healthscore_collected_at : JVal

/-- The body of `score_plugin_baseline` from line 401 on: everything the
function computes from the normalised name `name = plugin.lower().strip()`
(the verbatim `plugin` appears again only in the final `ScoreResult`).
`today`/`now` stand for `datetime.now(UTC)` and its `.date()`. -/
def scoreCore (name : String) (ds : Dataset) (today : PyDate) (now : PyDateTime)
    (real : Bool) : Except Unit (ℤ × List String × Features) :=
  let kw := keywordStage name
  match advisorySection ds name today real with
  | .error e => .error e
  | .ok adv =>
  match snapshotSection ds name today now real (kw.points + adv.points) with
  | .error e => .error e
  | .ok snapRes =>
  match healthSection ds name snapRes.1 with
  | .error e => .error e
  | .ok hsRes =>
  let score := hsRes.1
  let reasons := kw.reasons ++ adv.reasons ++ snapRes.2.1 ++ hsRes.2.1
  let fin : ℤ × List String :=
    if score = 0 then (5, reasons ++ ["No heuristics matched (baseline default)."])
    else (score, reasons)
  .ok (max 0 (min 100 fin.1), fin.2,
    { matched_core_keywords := kw.matched_core,
      matched_scm_keywords := kw.matched_scm,
      advisory_count := adv.advisory_count,
      latest_advisory_date := adv.latest_advisory_date,
      days_since_latest_advisory := adv.days_since_latest_advisory,
      advisory_within_90d := adv.advisory_within_90d,
      advisory_within_365d := adv.advisory_within_365d,
      had_advisory_within_365d := adv.had_advisory_within_365d,
      max_cvss_base_score_observed := adv.max_cvss,
      max_cvss_severity_label_observed := adv.max_label,
      snapshot := snapRes.2.2,
      healthscore_value := hsRes.2.2.1,
      healthscore_date := hsRes.2.2.2.1,
      healthscore_collected_at := hsRes.2.2.2.2 })

structure ScoreResult where
  plugin : String
  score : ℤ
  reasons : List String
  features : Features

/-- `score_plugin_baseline` (lines 384-741). -/
def scorePluginBaseline (plugin : String) (ds : Dataset) (today : PyDate)
    (now : PyDateTime) (real : Bool) : Except Unit ScoreResult :=
  match scoreCore (pyNormalize plugin) ds today now real with
  | .error e => .error e
  | .ok t => .ok { plugin := plugin, score := t.1, reasons := t.2.1, features := t.2.2 }

/-! ## Fixtures and claim theorems for the scorer -/

/-- A dataset root with no files at all. -/
def emptyDs : Dataset :=
  { advReal := fun _ => none, advSample := fun _ => none, advBare := fun _ => none,
    snapshotFile := fun _ => none, hsPerPlugin := fun _ => none,
    hsAggTop := none, hsAggNested := none }

def d0 : PyDate := ⟨2026, 1, 1⟩

def t0 : PyDateTime :=
  { date := d0, hour := 0, minute := 0, second := 0, micro := 0, tzmin := some 0 }

theorem scoreCore_score_bounds (name : String) (ds : Dataset) (today : PyDate)
    (now : PyDateTime) (real : Bool) (t : ℤ × List String × Features)
    (h : scoreCore name ds today now real = .ok t) : 0 ≤ t.1 ∧ t.1 ≤ 100 := by
  unfold scoreCore at h
  simp only [] at h
  cases h1 : advisorySection ds name today real with
  | error e => rw [h1] at h; exact absurd h (by simp)
  | ok adv =>
    rw [h1] at h
    simp only [] at h
    cases h2 : snapshotSection ds name today now real
        ((keywordStage name).points + adv.points) with
    | error e => rw [h2] at h; exact absurd h (by simp)
    | ok snapRes =>
      rw [h2] at h
      simp only [] at h
      cases h3 : healthSection ds name snapRes.1 with
      | error e => rw [h3] at h; exact absurd h (by simp)
      | ok hsRes =>
        rw [h3] at h
        simp only [] at h
        obtain rfl := Except.ok.inj h
        exact ⟨le_max_left _ _, max_le (by norm_num) (min_le_left _ _)⟩

/-- **C1**: whenever `score_plugin_baseline` returns a `ScoreResult`, its
score is an integer in `[0, 100]`. -/
theorem claim_C1 (plugin : String) (ds : Dataset) (today : PyDate) (now : PyDateTime)
    (real : Bool) (r : ScoreResult)
    (h : scorePluginBaseline plugin ds today now real = .ok r) :
    0 ≤ r.score ∧ r.score ≤ 100 := by
  unfold scorePluginBaseline at h
  cases hsc : scoreCore (pyNormalize plugin) ds today now real with
  | error e => rw [hsc] at h; exact absurd h (by simp)
  | ok t =>
    rw [hsc] at h
    obtain rfl := Except.ok.inj h
    exact scoreCore_score_bounds _ ds today now real t hsc

def res1 : ScoreResult :=
  { plugin := "p",
    score := 5,
    reasons := ["No advisories found in local dataset (yet).",
      "No health score record found in local dataset (yet).",
      "No heuristics matched (baseline default)."],
    features :=
      { matched_core_keywords := [],
        matched_scm_keywords := [],
        advisory_count := 0,
        latest_advisory_date := none,
        days_since_latest_advisory := none,
        advisory_within_90d := 0,
        advisory_within_365d := 0,
        had_advisory_within_365d := false,
        max_cvss_base_score_observed := none,
        max_cvss_severity_label_observed := none,
        snapshot := defaultSnapFeatures false,
        healthscore_value := .null,
        healthscore_date := .null,
        healthscore_collected_at := .null } }

theorem claim_C1_witness :
    scorePluginBaseline "p" emptyDs d0 t0 false = .ok res1 ∧
      0 ≤ res1.score ∧ res1.score ≤ 100 :=
  ⟨rfl, claim_C1 "p" emptyDs d0 t0 false res1 rfl⟩

/-- A dataset whose only file is a sample advisories file for plugin `"x"`
holding one line that is not valid JSON. -/
def dsC2 : Dataset :=
  { emptyDs with advSample := fun pid => if pid = "x" then some [.bad] else none }

/-- **C2** (counterexample): with an advisories JSONL file present for
plugin `"x"` whose one line is invalid JSON, `score_plugin_baseline` raises
(the per-line `json.loads` at baseline.py line 378 has no exception
handling), instead of degrading to a `ScoreResult`. -/
theorem claim_C2_counterexample :
    scorePluginBaseline "x" dsC2 d0 t0 false = .error () := rfl

/-- **C10**: the returned `plugin` field is the input string verbatim, and
every other part of the result depends on the input name only through
`plugin.lower().strip()`: two inputs with the same normalised form give
results that differ at most in the `plugin` field. -/
theorem claim_C10 (p1 p2 : String) (ds : Dataset) (today : PyDate) (now : PyDateTime)
    (real : Bool) (h : pyNormalize p1 = pyNormalize p2) :
    (∀ r, scorePluginBaseline p1 ds today now real = .ok r → r.plugin = p1) ∧
    scorePluginBaseline p1 ds today now real =
      Except.map (fun r => { r with plugin := p1 })
        (scorePluginBaseline p2 ds today now real) := by
  constructor
  · intro r hr
    unfold scorePluginBaseline at hr
    cases hsc : scoreCore (pyNormalize p1) ds today now real with
    | error e => rw [hsc] at hr; exact absurd hr (by simp)
    | ok t =>
      rw [hsc] at hr
      simp only [] at hr
      obtain rfl := Except.ok.inj hr
      rfl
  · unfold scorePluginBaseline
    rw [h]
    cases scoreCore (pyNormalize p2) ds today now real with
    | error e => rfl
    | ok t => rfl

theorem claim_C10_witness :
    (∀ r, scorePluginBaseline " Credentials " emptyDs d0 t0 false = .ok r →
      r.plugin = " Credentials ") ∧
    scorePluginBaseline " Credentials " emptyDs d0 t0 false =
      Except.map (fun r => { r with plugin := " Credentials " })
        (scorePluginBaseline "credentials" emptyDs d0 t0 false) :=
  claim_C10 " Credentials " "credentials" emptyDs d0 t0 false (by decide)

theorem loadAdvisoriesForPlugin_none (ds : Dataset) (n : String) (real : Bool)
    (h1 : ds.advReal n = none) (h2 : ds.advSample n = none) (h3 : ds.advBare n = none) :
    loadAdvisoriesForPlugin ds n real = .ok [] := by
  unfold loadAdvisoriesForPlugin
  cases real <;> simp [h1, h2, h3]

theorem advisorySection_empty (ds : Dataset) (n : String) (today : PyDate) (real : Bool)
    (h1 : ds.advReal n = none) (h2 : ds.advSample n = none) (h3 : ds.advBare n = none) :
    advisorySection ds n today real = .ok
      { points := 0, reasons := ["No advisories found in local dataset (yet)."],
        advisory_count := 0, latest_advisory_date := none,
        days_since_latest_advisory := none, advisory_within_90d := 0,
        advisory_within_365d := 0, had_advisory_within_365d := false,
        max_cvss := none, max_label := none } := by
  unfold advisorySection
  rw [loadAdvisoriesForPlugin_none ds n real h1 h2 h3]
  rfl

theorem snapshotSection_missing (ds : Dataset) (n : String) (today : PyDate)
    (now : PyDateTime) (real : Bool) (score0 : ℤ) (h : ds.snapshotFile n = none) :
    snapshotSection ds n today now real score0 = .ok (score0, [], defaultSnapFeatures false) := by
  unfold snapshotSection loadPluginSnapshot
  rw [h]

theorem loadHealthscoreRecord_none (ds : Dataset) (n : String)
    (h1 : ds.hsPerPlugin n = none) (h2 : ds.hsAggTop = none) (h3 : ds.hsAggNested = none) :
    loadHealthscoreRecord ds n = none := by
  unfold loadHealthscoreRecord aggCandidate
  rw [h1, h2, h3]

theorem healthSection_none (ds : Dataset) (n : String) (score0 : ℤ)
    (h : loadHealthscoreRecord ds n = none) :
    healthSection ds n score0 = .ok
      (score0, ["No health score record found in local dataset (yet)."],
        (.null, .null, .null)) := by
  unfold healthSection
  rw [h]

theorem keywordStage_nomatch (name : String)
    (h1 : (coreKeywords.filter fun k => pyInStr k name) = [])
    (h2 : (scmKeywords.filter fun k => pyInStr k name) = []) :
    keywordStage name = { points := 0, reasons := [], matched_core := [], matched_scm := [] } := by
  unfold keywordStage
  rw [h1, h2]
  rfl

/-- **C6**: a plugin whose normalised name matches no keyword of either
fixed set, over a dataset holding no advisories file, no snapshot and no
health-score record for it, scores exactly 5 with the baseline-default
reason, and no exception escapes. -/
theorem claim_C6 (plugin : String) (ds : Dataset) (today : PyDate) (now : PyDateTime)
    (real : Bool)
    (hkw1 : (coreKeywords.filter fun k => pyInStr k (pyNormalize plugin)) = [])
    (hkw2 : (scmKeywords.filter fun k => pyInStr k (pyNormalize plugin)) = [])
    (ha1 : ds.advReal (pyNormalize plugin) = none)
    (ha2 : ds.advSample (pyNormalize plugin) = none)
    (ha3 : ds.advBare (pyNormalize plugin) = none)
    (hsn : ds.snapshotFile (pyNormalize plugin) = none)
    (hh1 : ds.hsPerPlugin (pyNormalize plugin) = none)
    (hh2 : ds.hsAggTop = none) (hh3 : ds.hsAggNested = none) :
    ∃ r : ScoreResult, scorePluginBaseline plugin ds today now real = .ok r ∧
      r.score = 5 ∧ "No heuristics matched (baseline default)." ∈ r.reasons := by
  unfold scorePluginBaseline scoreCore
  rw [keywordStage_nomatch _ hkw1 hkw2,
    advisorySection_empty ds _ today real ha1 ha2 ha3]
  simp only []
  rw [snapshotSection_missing ds _ today now real _ hsn]
  simp only []
  rw [healthSection_none ds _ _ (loadHealthscoreRecord_none ds _ hh1 hh2 hh3)]
  simp only []
  norm_num

theorem claim_C6_witness :
    ∃ r : ScoreResult,
      scorePluginBaseline "totally-random-plugin-name" emptyDs d0 t0 false = .ok r ∧
      r.score = 5 ∧ "No heuristics matched (baseline default)." ∈ r.reasons :=
  claim_C6 "totally-random-plugin-name" emptyDs d0 t0 false (by decide) (by decide)
    rfl rfl rfl rfl rfl rfl rfl

theorem snapshotDeps_spec (ds : Dataset) (today : PyDate) (real : Bool)
    (depIds : List String) (score3 : ℤ) (rs : List String) (base : SnapFeatures)
    (out : ℤ × List String × SnapFeatures)
    (h : snapshotDeps ds today real depIds score3 rs base = .ok out) :
    0 ≤ out.2.2.dependency_risk_points ∧ out.2.2.dependency_risk_points ≤ 20 ∧
    ∃ agg : DepAgg, depLoop ds today real depAgg0 out.2.2.dependency_plugins = .ok agg ∧
      out.2.2.dependency_risk_points =
        max 0 (min 20 ((((sortDescStable depSortKeyLt agg.pairs).take 5).map Prod.fst).sum)) ∧
      ∃ pre : ℤ, out.1 = pre + out.2.2.dependency_risk_points := by
  unfold snapshotDeps at h
  cases hdl : depLoop ds today real depAgg0 depIds with
  | error e => rw [hdl] at h; exact absurd h (by simp)
  | ok agg =>
    rw [hdl] at h
    simp only [] at h
    obtain rfl := Except.ok.inj h
    exact ⟨le_max_left _ _, max_le (by norm_num) (min_le_left _ _), agg, hdl, rfl,
      score3, rfl⟩

/-- **C7**: however many dependencies the snapshot declares and however
high their per-dependency risk points, the dependency contribution recorded
in the features (and added to the score) is exactly the top-5 sum of the
stably descending-sorted (risk_points, max_cvss) pairs clamped into
[0, 20] - in particular it never exceeds 20. -/
theorem claim_C7 (ds : Dataset) (name : String) (today : PyDate) (now : PyDateTime)
    (real : Bool) (score0 : ℤ) (out : ℤ × List String × SnapFeatures)
    (h : snapshotSection ds name today now real score0 = .ok out) :
    0 ≤ out.2.2.dependency_risk_points ∧ out.2.2.dependency_risk_points ≤ 20 ∧
    ∃ agg : DepAgg, depLoop ds today real depAgg0 out.2.2.dependency_plugins = .ok agg ∧
      out.2.2.dependency_risk_points =
        max 0 (min 20 ((((sortDescStable depSortKeyLt agg.pairs).take 5).map Prod.fst).sum)) ∧
      ∃ pre : ℤ, out.1 = pre + out.2.2.dependency_risk_points := by
  unfold snapshotSection at h
  cases h1 : loadPluginSnapshot ds name with
  | error e => rw [h1] at h; exact absurd h (by simp)
  | ok snap? =>
  rw [h1] at h
  simp only [] at h
  cases snap? with
  | none =>
    simp only [] at h
    obtain rfl := Except.ok.inj h
    have h20 : (0:ℤ) ≤ 20 := by norm_num
    exact ⟨le_refl 0, h20, depAgg0, rfl, rfl, score0, (add_zero score0).symm⟩
  | some snap =>
  simp only [] at h
  by_cases hg : ¬ (snap.truthy ∧ snap.isObj)
  · rw [if_pos hg] at h
    obtain rfl := Except.ok.inj h
    have h20 : (0:ℤ) ≤ 20 := by norm_num
    exact ⟨le_refl 0, h20, depAgg0, rfl, rfl, score0, (add_zero score0).symm⟩
  · rw [if_neg hg] at h
    cases h2 : (snapApi snap).getE "requiredCore" JVal.null with
    | error e => rw [h2] at h; exact absurd h (by simp)
    | ok requiredCore =>
    rw [h2] at h; simp only [] at h
    cases h3 : (snapApi snap).getE "dependencies" JVal.null with
    | error e => rw [h3] at h; exact absurd h (by simp)
    | ok deps0 =>
    rw [h3] at h; simp only [] at h
    cases h4 : (snapApi snap).getE "securityWarnings" JVal.null with
    | error e => rw [h4] at h; exact absurd h (by simp)
    | ok sw0 =>
    rw [h4] at h; simp only [] at h
    cases h5 : (pyOr deps0 (JVal.arr [])).lenE with
    | error e => rw [h5] at h; exact absurd h (by simp)
    | ok depCount =>
    rw [h5] at h; simp only [] at h
    cases h6 : (pyOr sw0 (JVal.arr [])).lenE with
    | error e => rw [h6] at h; exact absurd h (by simp)
    | ok warnCount =>
    rw [h6] at h; simp only [] at h
    cases h7 : sumActiveWarnings (pyOr sw0 (JVal.arr [])) with
    | error e => rw [h7] at h; exact absurd h (by simp)
    | ok activeWarn =>
    rw [h7] at h; simp only [] at h
    cases h8 : releaseDays now (releaseTsOf (snapApi snap)) with
    | error e => rw [h8] at h; exact absurd h (by simp)
    | ok daysSinceRelease =>
    rw [h8] at h; simp only [] at h
    cases h9 : extractDependencyPluginIds snap with
    | error e => rw [h9] at h; exact absurd h (by simp)
    | ok depIds =>
    rw [h9] at h; simp only [] at h
    exact snapshotDeps_spec _ _ _ _ _ _ _ _ h

theorem claim_C7_witness :
    0 ≤ (0, ([] : List String), defaultSnapFeatures false).2.2.dependency_risk_points ∧
    (0, ([] : List String), defaultSnapFeatures false).2.2.dependency_risk_points ≤ 20 ∧
    ∃ agg : DepAgg,
      depLoop emptyDs d0 false depAgg0
          (0, ([] : List String), defaultSnapFeatures false).2.2.dependency_plugins = .ok agg ∧
      (0, ([] : List String), defaultSnapFeatures false).2.2.dependency_risk_points =
        max 0 (min 20 ((((sortDescStable depSortKeyLt agg.pairs).take 5).map Prod.fst).sum)) ∧
      ∃ pre : ℤ,
        (0, ([] : List String), defaultSnapFeatures false).1 =
          pre + (0, ([] : List String), defaultSnapFeatures false).2.2.dependency_risk_points :=
  claim_C7 emptyDs "p" d0 t0 false 0 (0, [], defaultSnapFeatures false) rfl

/-! ## Infrastructure for the canonicalization round trip (claim C9) -/

theorem splitFirst_eq {c : Char} : ∀ {l a b : List Char},
    splitFirst c l = some (a, b) → l = a ++ c :: b ∧ c ∉ a
  | [], a, b, h => by simp [splitFirst] at h
  | x :: xs, a, b, h => by
    unfold splitFirst at h
    by_cases hx : x = c
    · rw [if_pos hx] at h
      injection h with h
      injection h with h1 h2
      subst h1
      subst h2
      subst hx
      simp
    · rw [if_neg hx] at h
      cases hsf : splitFirst c xs with
      | none => rw [hsf] at h; simp at h
      | some q =>
        rw [hsf] at h
        simp only [Option.map_some'] at h
        injection h with h
        injection h with h1 h2
        obtain ⟨he, hnm⟩ := splitFirst_eq (l := xs) (a := q.1) (b := q.2)
          (by rw [hsf])
        subst h2
        cases a with
        | nil => exact absurd h1 (by simp)
        | cons a0 as =>
          injection h1 with h1a h1b
          subst h1a
          subst h1b
          refine ⟨by simp [he], ?_⟩
          intro hm
          rcases List.mem_cons.mp hm with hh | hh
          · exact hx hh.symm
          · exact hnm hh

theorem splitFirst_none {c : Char} {l : List Char}
    (h : splitFirst c l = none) : c ∉ l := by
  induction l with
  | nil => simp
  | cons x xs ih =>
    unfold splitFirst at h
    by_cases hx : x = c
    · rw [if_pos hx] at h; simp at h
    · rw [if_neg hx] at h
      cases hsf : splitFirst c xs with
      | none =>
        intro hm
        rcases List.mem_cons.mp hm with h | h
        · exact hx h.symm
        · exact ih hsf h
      | some p => rw [hsf] at h; simp at h

theorem splitFirst_append {c : Char} {a : List Char} (b : List Char)
    (h : c ∉ a) : splitFirst c (a ++ c :: b) = some (a, b) := by
  induction a with
  | nil => simp [splitFirst]
  | cons x xs ih =>
    have hx : x ≠ c := fun he => h (he ▸ List.mem_cons_self x xs)
    have hxs : c ∉ xs := fun hm => h (List.mem_cons_of_mem x hm)
    simp only [List.cons_append]
    unfold splitFirst
    rw [if_neg hx, ih hxs]
    rfl

theorem splitFirst_not_mem {c : Char} {l : List Char} (h : c ∉ l) :
    splitFirst c l = none := by
  cases hsf : splitFirst c l with
  | none => rfl
  | some p =>
    obtain ⟨he, _⟩ := splitFirst_eq (by rw [hsf])
    exact absurd (he ▸ (List.mem_append.mpr (Or.inr (List.mem_cons_self c p.2)))) h

theorem splitLast_append {c : Char} (a : List Char) {b : List Char}
    (h : c ∉ b) : splitLast c (a ++ c :: b) = some (a, b) := by
  unfold splitLast
  have hrev : (a ++ c :: b).reverse = b.reverse ++ c :: a.reverse := by
    simp
  rw [hrev, splitFirst_append a.reverse (by simpa using h)]
  simp

theorem splitLast_not_mem {c : Char} {l : List Char} (h : c ∉ l) :
    splitLast c l = none := by
  unfold splitLast
  rw [splitFirst_not_mem (by simpa using h)]
  rfl

theorem takeWhile_append_all {p : Char → Bool} {a : List Char} (b : List Char)
    (h : ∀ x ∈ a, p x = true) :
    (a ++ b).takeWhile p = a ++ b.takeWhile p := by
  induction a with
  | nil => simp
  | cons x xs ih =>
    have hx : p x = true := h x (List.mem_cons_self x xs)
    simp only [List.cons_append, List.takeWhile_cons, hx, if_true]
    rw [ih fun y hy => h y (List.mem_cons_of_mem x hy)]

theorem dropWhile_append_all {p : Char → Bool} {a : List Char} (b : List Char)
    (h : ∀ x ∈ a, p x = true) :
    (a ++ b).dropWhile p = b.dropWhile p := by
  induction a with
  | nil => simp
  | cons x xs ih =>
    have hx : p x = true := h x (List.mem_cons_self x xs)
    simp only [List.cons_append, List.dropWhile_cons, hx, if_true]
    exact ih fun y hy => h y (List.mem_cons_of_mem x hy)

theorem takeWhile_head_false {p : Char → Bool} {l : List Char}
    (h : l = [] ∨ ∃ d t, l = d :: t ∧ p d = false) :
    l.takeWhile p = [] ∧ l.dropWhile p = l := by
  rcases h with rfl | ⟨d, t, rfl, hd⟩
  · simp
  · simp [List.takeWhile_cons, List.dropWhile_cons, hd]

def headAlpha : List Char → Bool
  | [] => false
  | c :: _ => isAsciiAlpha c

/-- The shape `urlsplit` guarantees of a non-empty extracted scheme. -/
def SchemeWF (s : List Char) : Prop :=
  (s.all fun c => schemeCharsList.contains c) = true ∧ headAlpha s = true ∧
    asciiLowerChars s = s

theorem schemeChars_facts : ∀ c ∈ schemeCharsList,
    asciiLowerChar c ∈ schemeCharsList ∧
    asciiLowerChar (asciiLowerChar c) = asciiLowerChar c ∧
    (isAsciiAlpha c = true → isAsciiAlpha (asciiLowerChar c) = true) ∧
    cleanChar c = true ∧ c ≠ ':' := by decide

theorem mem_of_all_contains {s : List Char}
    (h : (s.all fun c => schemeCharsList.contains c) = true) :
    ∀ c ∈ s, c ∈ schemeCharsList := by
  intro c hc
  have := List.all_eq_true.mp h c hc
  exact List.elem_iff.mp this

theorem schemeWF_of_pre {pre : List Char}
    (h1 : (pre.all fun c => schemeCharsList.contains c) = true)
    (h2 : headAlpha pre = true) : SchemeWF (asciiLowerChars pre) := by
  have hmem := mem_of_all_contains h1
  refine ⟨?_, ?_, ?_⟩
  · rw [List.all_eq_true]
    intro c hc
    rcases List.mem_map.mp hc with ⟨c0, hc0, rfl⟩
    exact List.elem_iff.mpr (schemeChars_facts c0 (hmem c0 hc0)).1
  · cases pre with
    | nil => simp [headAlpha] at h2
    | cons c t =>
      have hc := hmem c (List.mem_cons_self c t)
      have := (schemeChars_facts c hc).2.2.1 (by simpa [headAlpha] using h2)
      simpa [asciiLowerChars, headAlpha] using this
  · show asciiLowerChars (asciiLowerChars pre) = asciiLowerChars pre
    unfold asciiLowerChars
    rw [List.map_map]
    apply List.map_congr_left
    intro c hc
    exact (schemeChars_facts c (hmem c hc)).2.1

theorem schemeWF_props {s : List Char} (h : SchemeWF s) :
    s ≠ [] ∧ ':' ∉ s ∧ ∀ c ∈ s, cleanChar c = true := by
  obtain ⟨h1, h2, _⟩ := h
  have hmem := mem_of_all_contains h1
  refine ⟨?_, ?_, ?_⟩
  · intro he; rw [he] at h2; simp [headAlpha] at h2
  · intro hc
    exact (schemeChars_facts ':' (hmem ':' hc)).2.2.2.2 rfl
  · intro c hc
    exact (schemeChars_facts c (hmem c hc)).2.2.2.1

theorem schemeWF_https : SchemeWF "https".data := by
  refine ⟨by decide, by decide, by decide⟩

def urlClean (l : List Char) : Prop := ∀ c ∈ l, cleanChar c = true

theorem urlClean_remove (l : List Char) : urlClean (removeUnsafeUrlBytes l) := by
  intro c hc
  exact (List.mem_filter.mp hc).2

theorem remove_eq_self {l : List Char} (h : urlClean l) :
    removeUnsafeUrlBytes l = l :=
  List.filter_eq_self.mpr h

theorem urlClean_append {a b : List Char} (ha : urlClean a) (hb : urlClean b) :
    urlClean (a ++ b) := by
  intro c hc
  rcases List.mem_append.mp hc with h | h
  · exact ha c h
  · exact hb c h

theorem urlClean_subset {a l : List Char} (hsub : ∀ c ∈ a, c ∈ l)
    (h : urlClean l) : urlClean a :=
  fun c hc => h c (hsub c hc)

theorem ct_scheme (p : ParseResult) :
    (canonTransform p).scheme =
      (if (if p.scheme.isEmpty then "https".data else p.scheme) = "http".data
       then "https".data
       else (if p.scheme.isEmpty then "https".data else p.scheme)) := rfl

theorem ct_netloc (p : ParseResult) :
    (canonTransform p).netloc =
      (if p.netloc = "jenkins.io".data then "www.jenkins.io".data else p.netloc) := rfl

theorem ct_scheme_wf {p : ParseResult} (h : p.scheme = [] ∨ SchemeWF p.scheme) :
    SchemeWF (canonTransform p).scheme := by
  rw [ct_scheme]
  by_cases h0 : p.scheme.isEmpty = true
  · rw [if_pos h0, if_neg (by decide)]
    exact schemeWF_https
  · rw [if_neg h0]
    rcases h with h | h
    · exact absurd (by simp [h]) h0
    · by_cases hh : p.scheme = "http".data
      · rw [if_pos hh]; exact schemeWF_https
      · rw [if_neg hh]; exact h

theorem ct_scheme_ne_http (p : ParseResult) :
    (canonTransform p).scheme ≠ "http".data := by
  rw [ct_scheme]
  by_cases h0 : p.scheme.isEmpty = true
  · rw [if_pos h0, if_neg (by decide)]; decide
  · rw [if_neg h0]
    by_cases hh : p.scheme = "http".data
    · rw [if_pos hh]; decide
    · rw [if_neg hh]; exact hh

theorem ct_scheme_ne_nil {p : ParseResult} (h : p.scheme = [] ∨ SchemeWF p.scheme) :
    (canonTransform p).scheme ≠ [] :=
  (schemeWF_props (ct_scheme_wf h)).1

theorem ct_netloc_ne (p : ParseResult) :
    (canonTransform p).netloc ≠ "jenkins.io".data := by
  rw [ct_netloc]
  by_cases hn : p.netloc = "jenkins.io".data
  · rw [if_pos hn]; decide
  · rw [if_neg hn]; exact hn

theorem canonTransform_eq_self {q : ParseResult} (hs : q.scheme ≠ [])
    (hh : q.scheme ≠ "http".data) (hn : q.netloc ≠ "jenkins.io".data) :
    canonTransform q = q := by
  obtain ⟨s, n, pa, pr, qu, f⟩ := q
  unfold canonTransform
  simp only [] at hs hh hn ⊢
  have h0 : s.isEmpty = false := by simpa using hs
  simp [h0, hh, hn]

theorem splitFragment_cases (l : List Char) :
    ('#' ∉ l ∧ splitFragment l = (l, [])) ∨
    (∃ a b, l = a ++ '#' :: b ∧ '#' ∉ a ∧ splitFragment l = (a, b)) := by
  unfold splitFragment
  cases hsf : splitFirst '#' l with
  | none => exact Or.inl ⟨splitFirst_none hsf, rfl⟩
  | some pp =>
    obtain ⟨a, b⟩ := pp
    obtain ⟨he, hn⟩ := splitFirst_eq hsf
    exact Or.inr ⟨a, b, he, hn, rfl⟩

theorem splitQuery_cases (l : List Char) :
    ('?' ∉ l ∧ splitQuery l = (l, [])) ∨
    (∃ a b, l = a ++ '?' :: b ∧ '?' ∉ a ∧ splitQuery l = (a, b)) := by
  unfold splitQuery
  cases hsf : splitFirst '?' l with
  | none => exact Or.inl ⟨splitFirst_none hsf, rfl⟩
  | some pp =>
    obtain ⟨a, b⟩ := pp
    obtain ⟨he, hn⟩ := splitFirst_eq hsf
    exact Or.inr ⟨a, b, he, hn, rfl⟩

theorem splitFragment_append {a : List Char} (b : List Char) (h : '#' ∉ a) :
    splitFragment (a ++ '#' :: b) = (a, b) := by
  unfold splitFragment
  rw [splitFirst_append b h]

theorem splitFragment_no {l : List Char} (h : '#' ∉ l) :
    splitFragment l = (l, []) := by
  unfold splitFragment
  rw [splitFirst_not_mem h]

theorem splitQuery_append {a : List Char} (b : List Char) (h : '?' ∉ a) :
    splitQuery (a ++ '?' :: b) = (a, b) := by
  unfold splitQuery
  rw [splitFirst_append b h]

theorem splitQuery_no {l : List Char} (h : '?' ∉ l) :
    splitQuery l = (l, []) := by
  unfold splitQuery
  rw [splitFirst_not_mem h]

theorem splitScheme_fst (l : List Char) :
    (splitScheme l).1 = [] ∨ SchemeWF (splitScheme l).1 := by
  unfold splitScheme
  cases hsf : splitFirst ':' l with
  | none => exact Or.inl rfl
  | some pp =>
    obtain ⟨pre, post⟩ := pp
    simp only []
    split
    · rename_i hcond
      right
      obtain ⟨h2, h1⟩ := Bool.and_eq_true_iff.mp hcond
      refine schemeWF_of_pre h1 ?_
      cases pre with
      | nil => simp at h2
      | cons c t => simpa [headAlpha] using h2
    · exact Or.inl rfl

theorem splitScheme_snd_subset (l : List Char) :
    ∀ c ∈ (splitScheme l).2, c ∈ l := by
  unfold splitScheme
  cases hsf : splitFirst ':' l with
  | none => intro c hc; exact hc
  | some pp =>
    obtain ⟨pre, post⟩ := pp
    obtain ⟨he, -⟩ := splitFirst_eq hsf
    simp only []
    split
    · intro c hcm
      rw [he]
      exact List.mem_append.mpr (Or.inr (List.mem_cons_of_mem ':' hcm))
    · intro c hc; exact hc

theorem splitScheme_of_wf {s : List Char} (rest : List Char) (hwf : SchemeWF s) :
    splitScheme (s ++ ':' :: rest) = (s, rest) := by
  obtain ⟨h1, h2, h3⟩ := hwf
  have hns : ':' ∉ s := (schemeWF_props ⟨h1, h2, h3⟩).2.1
  unfold splitScheme
  rw [splitFirst_append rest hns]
  simp only []
  cases s with
  | nil => simp [headAlpha] at h2
  | cons c t =>
    have hca : isAsciiAlpha c = true := by simpa [headAlpha] using h2
    have hcond : (isAsciiAlpha c &&
        ((c :: t).all fun x => schemeCharsList.contains x)) = true := by
      rw [hca, h1]
      rfl
    rw [if_pos hcond, h3]

theorem dropWhile_shape (p : Char → Bool) (l : List Char) :
    l.dropWhile p = [] ∨
    ∃ d t, l.dropWhile p = d :: t ∧ p d = false := by
  induction l with
  | nil => simp
  | cons x xs ih =>
    by_cases hx : p x = true
    · simpa [List.dropWhile_cons, hx] using ih
    · right
      exact ⟨x, xs, by simp [List.dropWhile_cons, hx], by simpa using hx⟩

theorem takeWhile_subset (p : Char → Bool) (l : List Char) :
    ∀ c ∈ l.takeWhile p, c ∈ l :=
  fun _ hc => (l.takeWhile_sublist p).subset hc

theorem dropWhile_subset (p : Char → Bool) (l : List Char) :
    ∀ c ∈ l.dropWhile p, c ∈ l :=
  fun _ hc => (l.dropWhile_sublist p).subset hc

theorem drop_subset_chars (n : ℕ) (l : List Char) : ∀ c ∈ l.drop n, c ∈ l :=
  fun _ hc => (l.drop_sublist n).subset hc

theorem splitFragment_fst_no_hash (l : List Char) : '#' ∉ (splitFragment l).1 := by
  rcases splitFragment_cases l with ⟨hn, he⟩ | ⟨a, b, _, hn, he⟩ <;> rw [he] <;>
    exact hn

theorem splitQuery_fst_no_q (l : List Char) : '?' ∉ (splitQuery l).1 := by
  rcases splitQuery_cases l with ⟨hn, he⟩ | ⟨a, b, _, hn, he⟩ <;> rw [he] <;>
    exact hn

theorem splitFragment_fst_subset (l : List Char) :
    ∀ c ∈ (splitFragment l).1, c ∈ l := by
  rcases splitFragment_cases l with ⟨_, he⟩ | ⟨a, b, hl, _, he⟩ <;> rw [he]
  · exact fun c hc => hc
  · exact fun c hc => hl ▸ List.mem_append.mpr (Or.inl hc)

theorem splitFragment_snd_subset (l : List Char) :
    ∀ c ∈ (splitFragment l).2, c ∈ l := by
  rcases splitFragment_cases l with ⟨_, he⟩ | ⟨a, b, hl, _, he⟩ <;> rw [he]
  · simp
  · exact fun c hc =>
      hl ▸ List.mem_append.mpr (Or.inr (List.mem_cons_of_mem '#' hc))

theorem splitQuery_fst_subset (l : List Char) :
    ∀ c ∈ (splitQuery l).1, c ∈ l := by
  rcases splitQuery_cases l with ⟨_, he⟩ | ⟨a, b, hl, _, he⟩ <;> rw [he]
  · exact fun c hc => hc
  · exact fun c hc => hl ▸ List.mem_append.mpr (Or.inl hc)

theorem splitQuery_snd_subset (l : List Char) :
    ∀ c ∈ (splitQuery l).2, c ∈ l := by
  rcases splitQuery_cases l with ⟨_, he⟩ | ⟨a, b, hl, _, he⟩ <;> rw [he]
  · simp
  · exact fun c hc =>
      hl ▸ List.mem_append.mpr (Or.inr (List.mem_cons_of_mem '?' hc))

theorem splitFragment_fst_head (l : List Char) :
    (splitFragment l).1 = [] ∨ (splitFragment l).1.head? = l.head? := by
  rcases splitFragment_cases l with ⟨_, he⟩ | ⟨a, b, hl, _, he⟩ <;> rw [he]
  · exact Or.inr rfl
  · cases a with
    | nil => exact Or.inl rfl
    | cons x t => exact Or.inr (by rw [hl]; rfl)

theorem splitQuery_fst_head (l : List Char) :
    (splitQuery l).1 = [] ∨ (splitQuery l).1.head? = l.head? := by
  rcases splitQuery_cases l with ⟨_, he⟩ | ⟨a, b, hl, _, he⟩ <;> rw [he]
  · exact Or.inr rfl
  · cases a with
    | nil => exact Or.inl rfl
    | cons x t => exact Or.inr (by rw [hl]; rfl)

theorem delim_head_path {l : List Char}
    (h : l = [] ∨ ∃ d t, l = d :: t ∧ isNetlocDelim d = true) :
    (splitQuery (splitFragment l).1).1 = [] ∨
      (splitQuery (splitFragment l).1).1.head? = some '/' := by
  rcases splitQuery_fst_head (splitFragment l).1 with hq | hq
  · exact Or.inl hq
  rcases splitFragment_fst_head l with hf | hf
  · left
    rw [hf]
    rfl
  replace hq := hq.trans hf
  rcases h with rfl | ⟨d, t, rfl, hd⟩
  · left
    exact List.head?_eq_none_iff.mp hq
  have hqd : (splitQuery (splitFragment (d :: t)).1).1.head? = some d := hq
  have hdc : d = '/' ∨ d = '?' ∨ d = '#' := by
    simpa [isNetlocDelim] using hd
  rcases hdc with rfl | rfl | rfl
  · exact Or.inr hqd
  · left
    cases hql : (splitQuery (splitFragment ('?' :: t)).1).1 with
    | nil => rfl
    | cons x xs =>
      rw [hql] at hqd
      exfalso
      apply splitQuery_fst_no_q (splitFragment ('?' :: t)).1
      rw [hql]
      exact (Option.some.inj hqd) ▸ List.mem_cons_self x xs
  · left
    cases hql : (splitQuery (splitFragment ('#' :: t)).1).1 with
    | nil => rfl
    | cons x xs =>
      rw [hql] at hqd
      exfalso
      apply splitFragment_fst_no_hash ('#' :: t)
      apply splitQuery_fst_subset
      rw [hql]
      exact (Option.some.inj hqd) ▸ List.mem_cons_self x xs

/-- What `urlsplit` guarantees of a successful result. -/
structure SplitInv (s : SplitResult) : Prop where
  scheme_wf : s.scheme = [] ∨ SchemeWF s.scheme
  netloc_clean : urlClean s.netloc
  netloc_nodelim : ∀ c ∈ s.netloc, isNetlocDelim c = false
  netloc_brack : bracketOk s.netloc = true
  path_clean : urlClean s.path
  query_clean : urlClean s.query
  frag_clean : urlClean s.fragment
  path_no_hash : '#' ∉ s.path
  path_no_q : '?' ∉ s.path
  query_no_hash : '#' ∉ s.query
  path_shape : s.netloc ≠ [] → s.path = [] ∨ s.path.head? = some '/'

theorem urlsplitE_ok {url : List Char} {s : SplitResult}
    (h : urlsplitE url = .ok s) : SplitInv s := by
  unfold urlsplitE at h
  simp only [] at h
  by_cases hsw : charsStartsWith "//".data (splitScheme (removeUnsafeUrlBytes url)).2 = true
  · rw [if_pos hsw] at h
    cases hbr : bracketOk (splitNetloc ((splitScheme (removeUnsafeUrlBytes url)).2.drop 2)).1 with
    | false => rw [hbr] at h; simp at h
    | true =>
      rw [hbr] at h
      simp only [checknetlocOk, not_true, if_false, ite_false] at h
      obtain rfl := (Except.ok.inj h).symm
      have hclean2 : urlClean ((splitScheme (removeUnsafeUrlBytes url)).2) :=
        urlClean_subset (splitScheme_snd_subset _) (urlClean_remove url)
      have hcleanD : urlClean ((splitScheme (removeUnsafeUrlBytes url)).2.drop 2) :=
        urlClean_subset (drop_subset_chars _ _) hclean2
      have hcleanNl2 : urlClean
          (((splitScheme (removeUnsafeUrlBytes url)).2.drop 2).dropWhile
            (fun c => ¬ isNetlocDelim c = true)) := by
        exact urlClean_subset (dropWhile_subset _ _) hcleanD
      refine ⟨splitScheme_fst _, ?_, ?_, hbr, ?_, ?_, ?_, ?_, ?_, ?_, ?_⟩
      · exact urlClean_subset (takeWhile_subset _ _) hcleanD
      · intro c hc
        have := List.mem_takeWhile_imp hc
        simpa using this
      · exact urlClean_subset (splitQuery_fst_subset _)
          (urlClean_subset (splitFragment_fst_subset _) hcleanNl2)
      · exact urlClean_subset (splitQuery_snd_subset _)
          (urlClean_subset (splitFragment_fst_subset _) hcleanNl2)
      · exact urlClean_subset (splitFragment_snd_subset _) hcleanNl2
      · intro hc
        exact splitFragment_fst_no_hash _ (splitQuery_fst_subset _ _ hc)
      · exact splitQuery_fst_no_q _
      · intro hc
        exact splitFragment_fst_no_hash _ (splitQuery_snd_subset _ _ hc)
      · intro _
        apply delim_head_path
        rcases dropWhile_shape (fun c => ¬ isNetlocDelim c = true)
            ((splitScheme (removeUnsafeUrlBytes url)).2.drop 2) with hd | ⟨d, t, hd, hpd⟩
        · exact Or.inl hd
        · right
          exact ⟨d, t, hd, by simpa using hpd⟩
  · rw [if_neg hsw] at h
    cases hbr : bracketOk ([] : List Char) with
    | false => exact absurd hbr (by decide)
    | true =>
      rw [hbr] at h
      simp only [checknetlocOk, not_true, if_false, ite_false] at h
      obtain rfl := (Except.ok.inj h).symm
      have hclean2 : urlClean ((splitScheme (removeUnsafeUrlBytes url)).2) :=
        urlClean_subset (splitScheme_snd_subset _) (urlClean_remove url)
      refine ⟨splitScheme_fst _, ?_, ?_, hbr, ?_, ?_, ?_, ?_, ?_, ?_, ?_⟩
      · intro c hc; simp at hc
      · intro c hc; simp at hc
      · exact urlClean_subset (splitQuery_fst_subset _)
          (urlClean_subset (splitFragment_fst_subset _) hclean2)
      · exact urlClean_subset (splitQuery_snd_subset _)
          (urlClean_subset (splitFragment_fst_subset _) hclean2)
      · exact urlClean_subset (splitFragment_snd_subset _) hclean2
      · intro hc
        exact splitFragment_fst_no_hash _ (splitQuery_fst_subset _ _ hc)
      · exact splitQuery_fst_no_q _
      · intro hc
        exact splitFragment_fst_no_hash _ (splitQuery_snd_subset _ _ hc)
      · intro hn
        exact absurd rfl hn

theorem splitLast_eq {c : Char} {l a b : List Char}
    (h : splitLast c l = some (a, b)) : l = a ++ c :: b ∧ c ∉ b := by
  unfold splitLast at h
  cases hsf : splitFirst c l.reverse with
  | none => rw [hsf] at h; simp at h
  | some pp =>
    rw [hsf] at h
    simp only [Option.map_some'] at h
    injection h with h
    injection h with h1 h2
    obtain ⟨he, hn⟩ := splitFirst_eq hsf
    subst h1
    subst h2
    constructor
    · have := congrArg List.reverse he
      simpa using this
    · simpa using hn

theorem splitLast_none_mem {c : Char} {l : List Char}
    (h : splitLast c l = none) : c ∉ l := by
  unfold splitLast at h
  cases hsf : splitFirst c l.reverse with
  | none =>
    intro hm
    exact splitFirst_none hsf (List.mem_reverse.mpr hm)
  | some pp => rw [hsf] at h; simp at h

/-- The last path segment contains the split slash: `path = a ++ '/' :: b`
with no further `/` or `;` in `b`. -/
def lastSegOK (path : List Char) : Prop :=
  ∃ a b, path = a ++ '/' :: b ∧ '/' ∉ b ∧ ';' ∉ b

/-- What `urlparse` guarantees of a successful result. -/
structure ParseInv (p : ParseResult) : Prop where
  scheme_wf : p.scheme = [] ∨ SchemeWF p.scheme
  netloc_clean : urlClean p.netloc
  netloc_nodelim : ∀ c ∈ p.netloc, isNetlocDelim c = false
  netloc_brack : bracketOk p.netloc = true
  path_clean : urlClean p.path
  params_clean : urlClean p.params
  query_clean : urlClean p.query
  frag_clean : urlClean p.fragment
  path_no_hash : '#' ∉ p.path
  path_no_q : '?' ∉ p.path
  params_no_hash : '#' ∉ p.params
  params_no_q : '?' ∉ p.params
  query_no_hash : '#' ∉ p.query
  path_shape : p.netloc ≠ [] → p.path = [] ∨ p.path.head? = some '/'
  params_sem : usesParamsList.contains p.scheme = true → ';' ∈ p.path →
    lastSegOK p.path
  params_pos : p.params ≠ [] → p.netloc ≠ [] →
    usesParamsList.contains p.scheme = true ∧ '/' ∉ p.params ∧ lastSegOK p.path

theorem urlparseE_ok {url : List Char} {p : ParseResult}
    (h : urlparseE url = .ok p) : ParseInv p := by
  unfold urlparseE at h
  cases hsp : urlsplitE url with
  | error e => rw [hsp] at h; exact absurd h (by simp)
  | ok s =>
    rw [hsp] at h
    have hs := urlsplitE_ok hsp
    simp only [] at h
    by_cases hg : usesParamsList.contains s.scheme = true ∧ s.path.contains ';' = true
    · rw [if_pos hg] at h
      obtain rfl := (Except.ok.inj h).symm
      have hsem : ';' ∈ s.path := List.elem_iff.mp hg.2
      cases hsl : splitLast '/' s.path with
      | some a0b0 =>
        obtain ⟨a0, b0⟩ := a0b0
        obtain ⟨hpe, hslash⟩ := splitLast_eq hsl
        cases hsf : splitFirst ';' b0 with
        | none =>
          have hnsb : ';' ∉ b0 := splitFirst_none hsf
          unfold splitParams
          rw [hsl]
          simp only []
          rw [hsf]
          exact ⟨hs.scheme_wf, hs.netloc_clean, hs.netloc_nodelim, hs.netloc_brack,
            hs.path_clean, by intro c hc; simp at hc, hs.query_clean, hs.frag_clean,
            hs.path_no_hash, hs.path_no_q, by simp, by simp, hs.query_no_hash,
            hs.path_shape, fun _ _ => ⟨a0, b0, hpe, hslash, hnsb⟩,
            fun hne _ => absurd rfl hne⟩
        | some b1b2 =>
          obtain ⟨b1, b2⟩ := b1b2
          obtain ⟨hbe, hnsb1⟩ := splitFirst_eq hsf
          unfold splitParams
          rw [hsl]
          simp only []
          rw [hsf]
          have hsub1 : ∀ c ∈ a0 ++ '/' :: b1, c ∈ s.path := by
            intro c hc
            rw [hpe, hbe]
            rcases List.mem_append.mp hc with hc | hc
            · exact List.mem_append.mpr (Or.inl hc)
            · rcases List.mem_cons.mp hc with rfl | hc
              · exact List.mem_append.mpr (Or.inr (List.mem_cons_self _ _))
              · exact List.mem_append.mpr (Or.inr (List.mem_cons_of_mem _
                  (List.mem_append.mpr (Or.inl hc))))
          have hsub2 : ∀ c ∈ b2, c ∈ s.path := by
            intro c hc
            rw [hpe, hbe]
            exact List.mem_append.mpr (Or.inr (List.mem_cons_of_mem _
              (List.mem_append.mpr (Or.inr (List.mem_cons_of_mem _ hc)))))
          have hslash_b1 : '/' ∉ b1 := fun hm => hslash (hbe ▸ List.mem_append.mpr (Or.inl hm))
          have hslash_b2 : '/' ∉ b2 :=
            fun hm => hslash (hbe ▸ List.mem_append.mpr (Or.inr (List.mem_cons_of_mem _ hm)))
          have hlso : lastSegOK (a0 ++ '/' :: b1) := ⟨a0, b1, rfl, hslash_b1, hnsb1⟩
          refine ⟨hs.scheme_wf, hs.netloc_clean, hs.netloc_nodelim, hs.netloc_brack,
            urlClean_subset hsub1 hs.path_clean, urlClean_subset hsub2 hs.path_clean,
            hs.query_clean, hs.frag_clean,
            fun hm => hs.path_no_hash (hsub1 _ hm),
            fun hm => hs.path_no_q (hsub1 _ hm),
            fun hm => hs.path_no_hash (hsub2 _ hm),
            fun hm => hs.path_no_q (hsub2 _ hm),
            hs.query_no_hash, ?_, fun _ _ => hlso, fun _ _ => ⟨hg.1, hslash_b2, hlso⟩⟩
          intro hne
          rcases hs.path_shape hne with hnil | hhd
          · rw [hpe] at hnil
            exact absurd hnil (by simp)
          · right
            rw [hpe] at hhd
            cases a0 with
            | nil => rfl
            | cons x t => simpa using hhd
      | none =>
        have hnsl : '/' ∉ s.path := splitLast_none_mem hsl
        cases hsf : splitFirst ';' s.path with
        | none => exact absurd hsem (splitFirst_none hsf)
        | some u1u2 =>
          obtain ⟨u1, u2⟩ := u1u2
          obtain ⟨hue, hnsu1⟩ := splitFirst_eq hsf
          unfold splitParams
          rw [hsl]
          simp only []
          rw [hsf]
          have hfalse : s.netloc ≠ [] → False := by
            intro hne
            rcases hs.path_shape hne with hnil | hhd
            · rw [hue] at hnil; exact absurd hnil (by simp)
            · apply hnsl
              cases hp : s.path with
              | nil => rw [hp] at hhd; simp at hhd
              | cons x t =>
                rw [hp] at hhd
                obtain rfl := Option.some.inj hhd
                exact List.mem_cons_self _ _
          have hsubu1 : ∀ c ∈ u1, c ∈ s.path := by
            intro c hc
            rw [hue]
            exact List.mem_append.mpr (Or.inl hc)
          have hsubu2 : ∀ c ∈ u2, c ∈ s.path := by
            intro c hc
            rw [hue]
            exact List.mem_append.mpr (Or.inr (List.mem_cons_of_mem _ hc))
          exact ⟨hs.scheme_wf, hs.netloc_clean, hs.netloc_nodelim, hs.netloc_brack,
            urlClean_subset hsubu1 hs.path_clean, urlClean_subset hsubu2 hs.path_clean,
            hs.query_clean, hs.frag_clean,
            fun hm => hs.path_no_hash (hsubu1 _ hm),
            fun hm => hs.path_no_q (hsubu1 _ hm),
            fun hm => hs.path_no_hash (hsubu2 _ hm),
            fun hm => hs.path_no_q (hsubu2 _ hm),
            hs.query_no_hash,
            fun hne => (hfalse hne).elim,
            fun _ hm => absurd hm hnsu1,
            fun _ hne => (hfalse hne).elim⟩
    · rw [if_neg hg] at h
      obtain rfl := (Except.ok.inj h).symm
      refine ⟨hs.scheme_wf, hs.netloc_clean, hs.netloc_nodelim, hs.netloc_brack,
        hs.path_clean, by intro c hc; simp at hc, hs.query_clean, hs.frag_clean,
        hs.path_no_hash, hs.path_no_q, by simp, by simp, hs.query_no_hash,
        hs.path_shape, ?_, fun hne _ => absurd rfl hne⟩
      intro hup hm
      exact absurd ⟨hup, List.elem_iff.mpr hm⟩ hg

/-- The `url` argument `urlunparse` feeds to `urlunsplit` (path with
re-attached params). -/
def uCat (q : ParseResult) : List Char :=
  if ¬ q.params.isEmpty then q.path ++ ';' :: q.params else q.path

def qopt (q : ParseResult) : List Char :=
  if q.query.isEmpty then [] else '?' :: q.query

def fopt (q : ParseResult) : List Char :=
  if q.fragment.isEmpty then [] else '#' :: q.fragment

theorem urlunparse_eq {q : ParseResult} (hs : q.scheme ≠ []) (hn : q.netloc ≠ [])
    (hshape : uCat q = [] ∨ (uCat q).head? = some '/') :
    urlunparse q = q.scheme ++ ':' :: '/' :: '/' ::
      (q.netloc ++ (uCat q ++ (qopt q ++ fopt q))) := by
  unfold urlunparse urlunsplit
  simp only []
  have hu1 : (if ¬ (uCat q).isEmpty ∧
      ¬ charsStartsWith "/".data (uCat q) then '/' :: uCat q else uCat q) = uCat q := by
    rcases hshape with he | hh
    · rw [if_neg]
      intro ⟨h1, _⟩
      exact h1 (by rw [he]; rfl)
    · rw [if_neg]
      intro ⟨_, h2⟩
      apply h2
      cases hc : uCat q with
      | nil => rw [hc] at hh; simp at hh
      | cons x t =>
        rw [hc] at hh
        obtain rfl := Option.some.inj hh
        simp [charsStartsWith]
  rw [show (if ¬ q.params.isEmpty then q.path ++ ';' :: q.params else q.path) =
      uCat q from rfl]
  rw [hu1]
  have hnc : ¬ q.netloc.isEmpty := by
    intro hne
    exact hn (List.isEmpty_iff.mp hne)
  rw [if_pos (Or.inl hnc)]
  by_cases hq : q.query.isEmpty = true <;> by_cases hf : q.fragment.isEmpty = true <;>
    simp [qopt, fopt, hq, hf, hs, List.append_assoc]

theorem urlClean_cons {c : Char} {l : List Char} (hc : cleanChar c = true)
    (h : urlClean l) : urlClean (c :: l) := by
  intro x hx
  rcases List.mem_cons.mp hx with rfl | hx
  · exact hc
  · exact h x hx

theorem uCat_clean {q : ParseResult} (hpcl : urlClean q.path)
    (hprcl : urlClean q.params) : urlClean (uCat q) := by
  unfold uCat
  split
  · exact urlClean_append hpcl (urlClean_cons (by decide) hprcl)
  · exact hpcl

theorem qopt_clean {q : ParseResult} (hqcl : urlClean q.query) :
    urlClean (qopt q) := by
  unfold qopt
  split
  · intro x hx; simp at hx
  · exact urlClean_cons (by decide) hqcl

theorem fopt_clean {q : ParseResult} (hfcl : urlClean q.fragment) :
    urlClean (fopt q) := by
  unfold fopt
  split
  · intro x hx; simp at hx
  · exact urlClean_cons (by decide) hfcl

theorem out_clean {q : ParseResult} (hwf : SchemeWF q.scheme)
    (hncl : urlClean q.netloc) (hpcl : urlClean q.path) (hprcl : urlClean q.params)
    (hqcl : urlClean q.query) (hfcl : urlClean q.fragment) :
    urlClean (q.scheme ++ ':' :: '/' :: '/' ::
      (q.netloc ++ (uCat q ++ (qopt q ++ fopt q)))) := by
  apply urlClean_append (schemeWF_props hwf).2.2
  apply urlClean_cons (by decide)
  apply urlClean_cons (by decide)
  apply urlClean_cons (by decide)
  apply urlClean_append hncl
  apply urlClean_append (uCat_clean hpcl hprcl)
  exact urlClean_append (qopt_clean hqcl) (fopt_clean hfcl)

theorem uCat_no_hash {q : ParseResult} (hph : '#' ∉ q.path)
    (hprh : '#' ∉ q.params) : '#' ∉ uCat q := by
  unfold uCat
  split
  · intro hm
    rcases List.mem_append.mp hm with hm | hm
    · exact hph hm
    · rcases List.mem_cons.mp hm with he | hm
      · exact absurd he (by decide)
      · exact hprh hm
  · exact hph

theorem uCat_no_q {q : ParseResult} (hpq : '?' ∉ q.path)
    (hprq : '?' ∉ q.params) : '?' ∉ uCat q := by
  unfold uCat
  split
  · intro hm
    rcases List.mem_append.mp hm with hm | hm
    · exact hpq hm
    · rcases List.mem_cons.mp hm with he | hm
      · exact absurd he (by decide)
      · exact hprq hm
  · exact hpq

theorem qopt_no_hash {q : ParseResult} (hqh : '#' ∉ q.query) : '#' ∉ qopt q := by
  unfold qopt
  split
  · simp
  · intro hm
    rcases List.mem_cons.mp hm with he | hm
    · exact absurd he (by decide)
    · exact hqh hm

theorem tail_shape {q : ParseResult}
    (hshape : uCat q = [] ∨ (uCat q).head? = some '/') :
    uCat q ++ (qopt q ++ fopt q) = [] ∨
    ∃ d t, uCat q ++ (qopt q ++ fopt q) = d :: t ∧ isNetlocDelim d = true := by
  rcases hshape with he | hh
  · rw [he]
    simp only [List.nil_append]
    unfold qopt
    split
    · simp only [List.nil_append]
      unfold fopt
      split
      · exact Or.inl rfl
      · exact Or.inr ⟨'#', _, rfl, by decide⟩
    · exact Or.inr ⟨'?', _, rfl, by decide⟩
  · cases hc : uCat q with
    | nil => rw [hc] at hh; simp at hh
    | cons x t =>
      rw [hc] at hh
      obtain rfl := Option.some.inj hh
      exact Or.inr ⟨'/', _, rfl, by decide⟩

theorem splitFragment_tail {q : ParseResult} (hph : '#' ∉ q.path)
    (hprh : '#' ∉ q.params) (hqh : '#' ∉ q.query) :
    splitFragment (uCat q ++ (qopt q ++ fopt q)) =
      (uCat q ++ qopt q, q.fragment) := by
  have hno : '#' ∉ uCat q ++ qopt q := by
    intro hm
    rcases List.mem_append.mp hm with hm | hm
    · exact uCat_no_hash hph hprh hm
    · exact qopt_no_hash hqh hm
  unfold fopt
  split
  · rename_i hf
    rw [List.append_nil]
    rw [splitFragment_no hno]
    rw [List.isEmpty_iff.mp hf]
  · rw [show uCat q ++ (qopt q ++ '#' :: q.fragment) =
      (uCat q ++ qopt q) ++ '#' :: q.fragment by simp [List.append_assoc]]
    exact splitFragment_append _ hno

theorem splitQuery_tail {q : ParseResult} (hpq : '?' ∉ q.path)
    (hprq : '?' ∉ q.params) :
    splitQuery (uCat q ++ qopt q) = (uCat q, q.query) := by
  have hno : '?' ∉ uCat q := uCat_no_q hpq hprq
  unfold qopt
  split
  · rename_i hq
    simp only [List.append_nil]
    rw [splitQuery_no hno]
    rw [List.isEmpty_iff.mp hq]
  · exact splitQuery_append _ hno

theorem urlsplit_roundtrip {q : ParseResult}
    (hwf : SchemeWF q.scheme)
    (hncl : urlClean q.netloc) (hnd : ∀ c ∈ q.netloc, isNetlocDelim c = false)
    (hbr : bracketOk q.netloc = true) (hn : q.netloc ≠ [])
    (hpcl : urlClean q.path) (hprcl : urlClean q.params)
    (hqcl : urlClean q.query) (hfcl : urlClean q.fragment)
    (hph : '#' ∉ q.path) (hpq : '?' ∉ q.path)
    (hprh : '#' ∉ q.params) (hprq : '?' ∉ q.params)
    (hqh : '#' ∉ q.query)
    (hshape : uCat q = [] ∨ (uCat q).head? = some '/') :
    urlsplitE (urlunparse q) =
      .ok ⟨q.scheme, q.netloc, uCat q, q.query, q.fragment⟩ := by
  rw [urlunparse_eq (schemeWF_props hwf).1 hn hshape]
  unfold urlsplitE
  simp only []
  rw [remove_eq_self (out_clean hwf hncl hpcl hprcl hqcl hfcl)]
  rw [splitScheme_of_wf ('/' :: '/' :: (q.netloc ++ (uCat q ++ (qopt q ++ fopt q)))) hwf]
  simp only []
  rw [if_pos (show charsStartsWith "//".data
      ('/' :: '/' :: (q.netloc ++ (uCat q ++ (qopt q ++ fopt q)))) = true from rfl)]
  simp only [List.drop_succ_cons, List.drop_zero]
  unfold splitNetloc
  have hnal : ∀ x ∈ q.netloc, (fun c => decide ¬ isNetlocDelim c = true) x = true := by
    intro x hx
    simp [hnd x hx]
  rw [takeWhile_append_all _ hnal, dropWhile_append_all _ hnal]
  have htail := tail_shape (q := q) hshape
  have hM : (uCat q ++ (qopt q ++ fopt q)).takeWhile
        (fun c => decide ¬ isNetlocDelim c = true) = [] ∧
      (uCat q ++ (qopt q ++ fopt q)).dropWhile
        (fun c => decide ¬ isNetlocDelim c = true) = uCat q ++ (qopt q ++ fopt q) := by
    apply takeWhile_head_false
    rcases htail with he | ⟨d, t, he, hd⟩
    · exact Or.inl he
    · exact Or.inr ⟨d, t, he, by simp [hd]⟩
  rw [hM.1, hM.2, List.append_nil]
  rw [if_neg (by simp [hbr])]
  simp only []
  rw [splitFragment_tail hph hprh hqh]
  simp only []
  rw [splitQuery_tail hpq hprq]
  rw [if_neg (by simp [checknetlocOk])]

theorem ct_usesParams (p : ParseResult) :
    usesParamsList.contains (canonTransform p).scheme =
      usesParamsList.contains p.scheme := by
  rw [ct_scheme]
  by_cases h0 : p.scheme.isEmpty = true
  · rw [if_pos h0, if_neg (by decide)]
    rw [List.isEmpty_iff.mp h0]
    decide
  · rw [if_neg h0]
    by_cases hh : p.scheme = "http".data
    · rw [if_pos hh, hh]
      decide
    · rw [if_neg hh]

theorem ct_netloc_ne_nil {p : ParseResult} (hn : p.netloc ≠ []) :
    (canonTransform p).netloc ≠ [] := by
  rw [ct_netloc]; split
  · decide
  · exact hn

theorem ct_shape {p : ParseResult} (hi : ParseInv p) (hn : p.netloc ≠ []) :
    uCat (canonTransform p) = [] ∨ (uCat (canonTransform p)).head? = some '/' := by
  unfold uCat
  split
  · rename_i hpr
    have hprne : p.params ≠ [] := by
      intro he
      exact hpr (by simp [show (canonTransform p).params = p.params from rfl, he])
    obtain ⟨-, -, a, b, hpe, -, -⟩ := hi.params_pos hprne hn
    have hne : p.path ≠ [] := by rw [hpe]; simp
    cases hp : p.path with
    | nil => exact absurd hp hne
    | cons x t =>
      rcases hi.path_shape hn with hnil | hhd
      · rw [hp] at hnil; simp at hnil
      · rw [hp] at hhd
        obtain rfl := Option.some.inj hhd
        right
        rw [show (canonTransform p).path = p.path from rfl, hp]
        rfl
  · exact hi.path_shape hn

theorem urlparse_roundtrip {p : ParseResult} (hi : ParseInv p) (hn : p.netloc ≠ []) :
    urlparseE (urlunparse (canonTransform p)) = .ok (canonTransform p) := by
  have hwf : SchemeWF (canonTransform p).scheme := ct_scheme_wf hi.scheme_wf
  have hncl : urlClean (canonTransform p).netloc := by
    rw [ct_netloc]; split
    · unfold urlClean; decide
    · exact hi.netloc_clean
  have hnd : ∀ c ∈ (canonTransform p).netloc, isNetlocDelim c = false := by
    rw [ct_netloc]; split
    · decide
    · exact hi.netloc_nodelim
  have hbr2 : bracketOk (canonTransform p).netloc = true := by
    rw [ct_netloc]; split
    · decide
    · exact hi.netloc_brack
  have hn2 : (canonTransform p).netloc ≠ [] := ct_netloc_ne_nil hn
  have hshape : uCat (canonTransform p) = [] ∨
      (uCat (canonTransform p)).head? = some '/' := ct_shape hi hn
  unfold urlparseE
  rw [urlsplit_roundtrip hwf hncl hnd hbr2 hn2 hi.path_clean hi.params_clean
    hi.query_clean hi.frag_clean hi.path_no_hash hi.path_no_q hi.params_no_hash
    hi.params_no_q hi.query_no_hash hshape]
  simp only []
  by_cases hg : usesParamsList.contains (canonTransform p).scheme = true ∧
      (uCat (canonTransform p)).contains ';' = true
  · rw [if_pos hg]
    have hsp : splitParams (uCat (canonTransform p)) = (p.path, p.params) := by
      by_cases hpr : p.params = []
      · have hu : uCat (canonTransform p) = p.path := by
          unfold uCat
          rw [if_neg (by simp [show (canonTransform p).params = p.params from rfl, hpr])]
          rfl
        rw [hu]
        have hup : usesParamsList.contains p.scheme = true := by
          rw [← ct_usesParams p]; exact hg.1
        have hsem : ';' ∈ p.path := by
          have := hg.2
          rw [hu] at this
          exact List.elem_iff.mp this
        obtain ⟨a, b, hpe, hsb, hsemib⟩ := hi.params_sem hup hsem
        rw [hpe]
        unfold splitParams
        rw [splitLast_append a hsb]
        simp only []
        rw [splitFirst_not_mem hsemib]
        simp only []
        rw [← hpe, hpr]
      · obtain ⟨-, hslpr, a, b, hpe, hslb, hsemib⟩ := hi.params_pos hpr hn
        have hu : uCat (canonTransform p) = a ++ '/' :: (b ++ ';' :: p.params) := by
          unfold uCat
          rw [if_pos (by simp [show (canonTransform p).params = p.params from rfl, hpr])]
          rw [show (canonTransform p).path = p.path from rfl,
            show (canonTransform p).params = p.params from rfl, hpe]
          simp [List.append_assoc]
        rw [hu]
        unfold splitParams
        rw [splitLast_append a ?hnsl]
        case hnsl =>
          intro hm
          rcases List.mem_append.mp hm with hm | hm
          · exact hslb hm
          · rcases List.mem_cons.mp hm with he | hm
            · exact absurd he (by decide)
            · exact hslpr hm
        simp only []
        rw [splitFirst_append p.params hsemib]
        simp only []
        rw [← hpe]
    rw [hsp]
    rfl
  · rw [if_neg hg]
    have hpr : p.params = [] := by
      by_contra hpr
      obtain ⟨hup, -, -⟩ := hi.params_pos hpr hn
      apply hg
      constructor
      · rw [ct_usesParams p]; exact hup
      · apply List.elem_iff.mpr
        unfold uCat
        rw [if_pos (by simp [show (canonTransform p).params = p.params from rfl, hpr])]
        exact List.mem_append.mpr (Or.inr (List.mem_cons_self _ _))
    have hu : uCat (canonTransform p) = p.path := by
      unfold uCat
      rw [if_neg (by simp [show (canonTransform p).params = p.params from rfl, hpr])]
      rfl
    rw [hu]
    rw [show ([] : List Char) = p.params from hpr.symm]
    rfl

theorem urlunparse_ct_ne_nil {p : ParseResult} (hi : ParseInv p)
    (hn : p.netloc ≠ []) : urlunparse (canonTransform p) ≠ [] := by
  rw [urlunparse_eq (schemeWF_props (ct_scheme_wf hi.scheme_wf)).1
    (ct_netloc_ne_nil hn) (ct_shape hi hn)]
  simp

/-- **C9** (amended): `_canonicalize_jenkins_url` fixes the null sentinel,
maps every failed canonicalization to that fixed point, and is idempotent
on every URL whose stripped form parses with a non-empty netloc and whose
canonical output is whitespace-stable; full idempotence fails (see the
counterexample) because the output can end in stripped whitespace. -/
theorem claim_C9 :
    canonicalizeJenkinsUrl none = none ∧
    (∀ u : String, canonicalizeJenkinsUrl (some u) = none →
      canonicalizeJenkinsUrl (canonicalizeJenkinsUrl (some u)) = none) ∧
    (∀ (u : String) (p : ParseResult),
      urlparseE (pyStripChars u.data) = .ok p → p.netloc ≠ [] →
      pyStripChars (urlunparse (canonTransform p)) = urlunparse (canonTransform p) →
      canonicalizeJenkinsUrl (canonicalizeJenkinsUrl (some u)) =
        canonicalizeJenkinsUrl (some u)) := by
  refine ⟨rfl, ?_, ?_⟩
  · intro u h
    rw [h]
    rfl
  · intro u p hparse hn hstrip
    have hi := urlparseE_ok hparse
    have hne : ¬ u.data.isEmpty = true := by
      intro he
      rw [show pyStripChars u.data = [] from by
        rw [List.isEmpty_iff.mp he]; rfl] at hparse
      rw [show urlparseE [] = .ok ⟨[], [], [], [], [], []⟩ from rfl] at hparse
      rw [(Except.ok.inj hparse).symm] at hn
      exact hn rfl
    have h1 : canonicalizeJenkinsUrl (some u) =
        some ⟨urlunparse (canonTransform p)⟩ := by
      unfold canonicalizeJenkinsUrl canonicalizeAttempt
      simp only []
      rw [if_neg hne, hparse]
    rw [h1]
    have hone : ¬ (⟨urlunparse (canonTransform p)⟩ : String).data.isEmpty = true := by
      intro he
      exact urlunparse_ct_ne_nil hi hn (List.isEmpty_iff.mp he)
    unfold canonicalizeJenkinsUrl canonicalizeAttempt
    simp only []
    rw [if_neg hone]
    rw [hstrip]
    rw [urlparse_roundtrip hi hn]
    simp only []
    rw [canonTransform_eq_self (schemeWF_props (ct_scheme_wf hi.scheme_wf)).1
      (ct_scheme_ne_http p) (ct_netloc_ne p)]

theorem claim_C9_witness :
    canonicalizeJenkinsUrl (canonicalizeJenkinsUrl (some "https://www.jenkins.io/x")) =
      canonicalizeJenkinsUrl (some "https://www.jenkins.io/x") :=
  claim_C9.2.2 "https://www.jenkins.io/x"
    ⟨"https".data, "www.jenkins.io".data, "/x".data, [], [], []⟩ rfl (by decide) rfl
